import Mathlib

/-!
# Dialogue manager of OpenMW (`apps/openmw/mwdialogue/dialoguemanagerimp.cpp`)

A shallow embedding of `MWDialogue::DialogueManager` and of the helper functions
of the anonymous namespace of the same file, followed by theorems about them.

Modelling conventions.

* `std::string` is `String`; a C++ `char` is a Lean `Char`, and `std::tolower`
  is the "C" locale function (only `'A'..'Z'` are changed).
* `std::map<std::string, T>` is an association list with at most one entry per
  key (`StdMap`): `find` is `StdMap.find`, `m[k] = v` is `StdMap.set`.  The
  source never iterates over one of its maps, so the order of the entries is not
  observable.
* `std::list<std::string>` is `List String`; `push_back` appends at the end.
* A `float` is an IEEE 754 binary32 value (`Float32`): every addition and every
  conversion `int -> float` rounds to the nearest representable value, ties to
  even, with subnormals, overflow to an infinity and NaN; float expressions are
  evaluated in `float` precision.  The two zeros are one value.  A conversion
  `float -> int` truncates towards 0.  `int` values are unbounded integers.
* Everything reached through `MWBase::Environment::get()` that is not part of
  this source file (dialogue store, `Filter`, creature and NPC statistics,
  mechanics manager, script compiler and interpreter) is a field of the
  parameter `Ext`; the state of those collaborators is the type parameter `W`.
* The dialogue window is modelled by the list of the calls it receives
  (`WinEvent`), oldest first.
-/

namespace MWDialogue

/-! ## Helper functions of the anonymous namespace -/

/-- The function `std::tolower` in the "C" locale. -/
def tolower (c : Char) : Char :=
  if 65 ≤ c.toNat ∧ c.toNat ≤ 90 then Char.ofNat (c.toNat + 32) else c

/-- The function `toLower`, lines 44-52: `std::transform` of `tolower` over the
characters of `name`. -/
def toLower (name : String) : String :=
  ⟨name.data.map tolower⟩

/-- The loop and the final length test of `stringCompareNoCase`, on the
characters from index `i` on. -/
def stringCompareNoCaseAux : List Char → List Char → Bool
  | a :: first, b :: second =>
    if (tolower a).toNat < (tolower b).toNat then true
    else if (tolower a).toNat > (tolower b).toNat then false
    else stringCompareNoCaseAux first second
  | [], _ :: _ => true
  | _, [] => false

/-- The function `stringCompareNoCase`, lines 54-67. -/
def stringCompareNoCase (first second : String) : Bool :=
  stringCompareNoCaseAux first.data second.data

/-- Search of `needle` at the positions `i`, `i+1`, ... of a string whose
characters from position `i` on are the third argument. -/
def strFindAux (needle : List Char) : List Char → Nat → Option Nat
  | [], i => if needle = [] then some i else none
  | c :: cs, i =>
    if needle.isPrefixOf (c :: cs) then some i else strFindAux needle cs (i + 1)

/-- The library function `std::string::find (substr, pos)`: the first position
`>= pos` at which `substr` occurs, `none` standing for `npos`. -/
def strFind (str substr : String) (pos : Nat) : Option Nat :=
  if pos ≤ str.data.length then strFindAux substr.data (str.data.drop pos) pos else none

/-- The function `find_str_ci`, lines 70-73. -/
def find_str_ci (str substr : String) (pos : Nat) : Option Nat :=
  strFind (toLower str) (toLower substr) pos

/-- The library function `std::list::sort (comp)`: a stable sort, here by
insertion (`a` is placed before the first `b` that is not `comp`-below it). -/
def listSort (comp : String → String → Bool) (l : List String) : List String :=
  l.insertionSort (fun a b => comp b a = false)

/-! ## `std::map` -/

/-- A `std::map<std::string, β>`. -/
abbrev StdMap (β : Type) := List (String × β)

namespace StdMap

/-- The call `m.find (k)`; `none` stands for `m.end ()`. -/
def find {β : Type} : StdMap β → String → Option β
  | [], _ => none
  | (k', v) :: m, k => if k' = k then some v else find m k

/-- The assignment `m[k] = v`. -/
def set {β : Type} : StdMap β → String → β → StdMap β
  | [], k, v => [(k, v)]
  | (k', v') :: m, k, v => if k' = k then (k, v) :: m else (k', v') :: set m k v

/-- The keys of the map. -/
def keys {β : Type} (m : StdMap β) : List String :=
  m.map Prod.fst

end StdMap

/-! ## Records of the dialogue store -/

/-- The values of `ESM::Dialogue::Type`. -/
inductive DialogueType
  | Topic
  | Voice
  | Greeting
  | Persuasion
  | Journal
  | Deleted
deriving DecidableEq, Repr

/-- The fields of `ESM::DialInfo` that the dialogue manager reads. -/
structure DialInfo where
  mId : String
  mResponse : String
  mResultScript : String
  mSound : String
deriving DecidableEq, Repr

/-- The fields of `ESM::Dialogue` that the dialogue manager reads. -/
structure Dialogue where
  mId : String
  mType : DialogueType
  mInfo : List DialInfo
deriving DecidableEq, Repr

/-- What `getTypeName ()` of a reference is compared with. -/
inductive RefType
  | NPC
  | Creature
  | Other
deriving DecidableEq, Repr

/-- A reference `MWWorld::Ptr` to an actor, with the fields of its base record
that `updateTopics` and `goodbyeSelected` read. -/
structure Ptr where
  mRefId : String
  typeName : RefType
  mHasAI : Bool
  mServices : Nat
  mTransport : List String
deriving DecidableEq, Repr

/-- The calls received by the window manager and the dialogue window. -/
inductive WinEvent
  | pushGuiMode
  | removeGuiMode
  | startDialogue (name : String)
  | addTitle (text : String)
  | addText (text : String)
  | setKeywords (keyWords : List String)
  | setServices (services : Nat)
  | askQuestion (question : String)
  | goodbye
deriving DecidableEq, Repr

/-- Whether a window call is `addTitle` or `addText`. -/
def WinEvent.isText : WinEvent → Bool
  | .addTitle _ => true
  | .addText _ => true
  | _ => false

/-! ## The type `float` -/

/-- The conversion of a finite `float` of value `x` to an `int`: truncation
towards zero. -/
def floatToInt (x : ℚ) : Int :=
  if 0 ≤ x then ⌊x⌋ else ⌈x⌉

/-- A value of the type `float`: a finite value (the two zeros are not
distinguished), an infinity, or a NaN.  The operations below produce finite
values that are representable in binary32. -/
inductive Float32
  | finite (q : ℚ)
  | inf (negative : Bool)
  | nan
deriving DecidableEq

/-- The exponent of the binade of `a > 0` among `-126, ..., n - 126`: the
greatest `e` in that range with `2 ^ e <= a`, and `-126` (the exponent of the
subnormal numbers) when there is none. -/
def exponent32 (a : ℚ) : Nat → Int
  | 0 => -126
  | n + 1 =>
    if (2 : ℚ) ^ ((n : Int) + 1 - 126) ≤ a then (n : Int) + 1 - 126 else exponent32 a n

/-- Rounding to the nearest integer, ties to the even one. -/
def roundHalfEven (x : ℚ) : Int :=
  if x - ⌊x⌋ < 1 / 2 then ⌊x⌋
  else if 1 / 2 < x - ⌊x⌋ then ⌊x⌋ + 1
  else if ⌊x⌋ % 2 = 0 then ⌊x⌋ else ⌊x⌋ + 1

/-- The multiple of the unit in the last place (`2 ^ (e - 23)`, a significand
of 24 bits) nearest to `a > 0`, ties to even, for an unbounded exponent range
upwards. -/
def roundMagnitude (a : ℚ) : ℚ :=
  (roundHalfEven (a / (2 : ℚ) ^ (exponent32 a 253 - 23)) : ℚ)
    * (2 : ℚ) ^ (exponent32 a 253 - 23)

/-- The `float` nearest to the real number `x` (round to nearest, ties to
even): an infinity when the rounded magnitude reaches `2 ^ 128`. -/
def round32 (x : ℚ) : Float32 :=
  if x = 0 then Float32.finite 0
  else if (2 : ℚ) ^ (128 : ℕ) ≤ roundMagnitude |x| then Float32.inf (decide (x < 0))
  else if x < 0 then Float32.finite (- roundMagnitude |x|)
  else Float32.finite (roundMagnitude |x|)

/-- The sum of two `float` values. -/
def Float32.add : Float32 → Float32 → Float32
  | .finite a, .finite b => round32 (a + b)
  | .finite _, .inf negative => .inf negative
  | .inf negative, .finite _ => .inf negative
  | .inf a, .inf b => if a = b then .inf a else .nan
  | .nan, _ => .nan
  | _, .nan => .nan

/-- The conversion of an `int` to a `float`. -/
def Float32.ofInt (n : Int) : Float32 :=
  round32 (n : ℚ)

/-- The comparison `x < y` of two `float` values (false when one is a NaN). -/
def Float32.lt : Float32 → Float32 → Bool
  | .finite a, .finite b => decide (a < b)
  | .finite _, .inf negative => !negative
  | .inf negative, .finite _ => negative
  | .inf a, .inf b => a && !b
  | .nan, _ => false
  | _, .nan => false

/-- The conversion of a `float` to an `int`: truncation towards zero, into
the unbounded integers.  The conversion of an infinity or of a NaN is
undefined in C++; it is 0 here, and no statement below depends on that
value. -/
def Float32.toInt : Float32 → Int
  | .finite q => floatToInt q
  | _ => 0

/-! ## The state -/

/-- The data members of `DialogueManager`. -/
structure DialogueManager where
  mDialogueMap : StdMap Dialogue
  mKnownTopics : StdMap Bool
  mActorKnownTopics : List String
  mChoiceMap : StdMap Int
  mLastTopic : String
  mLastDialogue : DialInfo
  mActor : Ptr
  mTalkedTo : Bool
  mChoice : Int
  mIsInChoice : Bool
  mTemporaryDispositionChange : Float32
  mPermanentDispositionChange : Float32

/-- The manager together with what it reaches through
`MWBase::Environment::get ()`: the state `world` of the other subsystems and
the calls `win` made so far to the window manager and the dialogue window. -/
structure Sys (W : Type) where
  dm : DialogueManager
  world : W
  win : List WinEvent

/-- Compiled script code (`std::vector<Interpreter::Type_Code>`). -/
abbrev Code := List Nat

/-- The constants `ESM::NPC::Weapon`, ... (service flags of an actor) and
`MWGui::DialogueWindow::Service_Trade`, ... (services of the window), whose
declarations are in headers. -/
structure ServiceFlags where
  Weapon : Nat
  Armor : Nat
  Clothing : Nat
  Books : Nat
  Ingredients : Nat
  Picks : Nat
  Probes : Nat
  Lights : Nat
  Apparatus : Nat
  RepairItem : Nat
  Misc : Nat
  Spells : Nat
  Spellmaking : Nat
  Training : Nat
  Enchanting : Nat
  Service_Trade : Nat
  Service_Travel : Nat
  Service_BuySpells : Nat
  Service_CreateSpells : Nat
  Service_Training : Nat
  Service_Enchant : Nat

/-- The collaborators of the dialogue manager.

* `dialogs`: the store `getStore ().get<ESM::Dialogue> ()`, in iteration order;
* `search w actor choice talkedTo dialogue`: the result of
  `Filter (actor, choice, talkedTo).search (dialogue)` (`none` for a null
  pointer) when the other subsystems are in state `w`;
* `hasTalkedToPlayer`, `talkedToPlayer`: the functions of `CreatureStats`;
* `getName`: `MWWorld::Class::get (actor).getName (actor)`;
* `getBaseDisposition`, `setBaseDisposition`: the functions of `NpcStats`;
* `getPersuasionDispositionChange w actor type currentTemporary`: the values
  stored in `success`, `temp`, `perm` by the mechanics manager, and the state it
  leaves;
* `getDerivedDisposition`: the function of the mechanics manager;
* `skillUsageSucceeded`: the effect of
  `skillUsageSucceeded (player, ESM::Skill::Speechcraft, 0)`;
* `PT_Admire`, `PT_Taunt`, `PT_Intimidate`: the enumeration constants of
  `MWBase::MechanicsManager::PersuasionType`;
* `replaceTags`: `MyGUI::LanguageManager::getInstance ().replaceTags`;
* `compile w actor cmd`: the code produced by the script parser for `cmd`, or
  `none` when `DialogueManager::compile` returns false;
* `run code s`: the state after `interpreter.run` on `code`, including whatever
  was done before an exception was thrown; the interpreter can call back into
  the manager, hence it acts on the whole state. -/
structure Ext (W : Type) where
  dialogs : List Dialogue
  search : W → Ptr → Int → Bool → Dialogue → Option DialInfo
  hasTalkedToPlayer : W → Ptr → Bool
  talkedToPlayer : W → Ptr → W
  getName : Ptr → String
  getBaseDisposition : W → Ptr → Int
  setBaseDisposition : W → Ptr → Int → W
  getPersuasionDispositionChange : W → Ptr → Int → Float32 → (Bool × Float32 × Float32) × W
  getDerivedDisposition : W → Ptr → Int
  skillUsageSucceeded : W → W
  PT_Admire : Int
  PT_Taunt : Int
  PT_Intimidate : Int
  replaceTags : String → String
  compile : W → Ptr → String → Option Code
  run : Code → Sys W → Sys W
  flags : ServiceFlags

/-! ## The member functions -/

section Operations

variable {W : Type}

/-- The constructor, lines 78-98: `mDialogueMap[toLower (it->mId)] = *it` for
every record of the store.  The members that the constructor leaves
uninitialised or default-constructed (`mActor`, `mTalkedTo`, `mLastTopic`,
`mLastDialogue`, the two other maps) are given by `actor` and `talkedTo`, or
are empty. -/
def DialogueManager.create (dialogs : List Dialogue) (actor : Ptr) (talkedTo : Bool) :
    DialogueManager where
  mDialogueMap := dialogs.foldl (fun m it => StdMap.set m (toLower it.mId) it) []
  mKnownTopics := []
  mActorKnownTopics := []
  mChoiceMap := []
  mLastTopic := ""
  mLastDialogue := ⟨"", "", "", ""⟩
  mActor := actor
  mTalkedTo := talkedTo
  mChoice := -1
  mIsInChoice := false
  mTemporaryDispositionChange := Float32.finite 0
  mPermanentDispositionChange := Float32.finite 0

/-- The function `addTopic`, lines 100-103. -/
def addTopic (s : Sys W) (topic : String) : Sys W :=
  { s with dm := { s.dm with mKnownTopics := StdMap.set s.dm.mKnownTopics (toLower topic) true } }

/-- The body of the loop of `updateTopics`, lines 255-267, on the pair
(`mActorKnownTopics`, `keywordList`), with the filter
`Filter (mActor, mChoice, mTalkedTo)` of line 251. -/
def updateTopicsStep (ext : Ext W) (s : Sys W) (acc : List String × List String)
    (iter : Dialogue) : List String × List String :=
  if iter.mType = DialogueType.Topic then
    if (ext.search s.world s.dm.mActor s.dm.mChoice s.dm.mTalkedTo iter).isSome then
      if (StdMap.find s.dm.mKnownTopics (toLower iter.mId)).isSome then
        (acc.1 ++ [toLower iter.mId], acc.2 ++ [iter.mId])
      else
        (acc.1 ++ [toLower iter.mId], acc.2)
    else acc
  else acc

/-- The value of `services`, lines 271-283. -/
def actorServices (actor : Ptr) : Nat :=
  if actor.typeName = RefType.NPC then
    if actor.mHasAI then actor.mServices else 0
  else if actor.typeName = RefType.Creature then
    if actor.mHasAI then actor.mServices else 0
  else 0

/-- The value of `windowServices`, lines 285-313. -/
def windowServices (f : ServiceFlags) (actor : Ptr) : Nat :=
  let services := actorServices actor
  let w0 : Nat := 0
  let w1 :=
    if services &&& f.Weapon ≠ 0 ∨ services &&& f.Armor ≠ 0 ∨ services &&& f.Clothing ≠ 0
        ∨ services &&& f.Books ≠ 0 ∨ services &&& f.Ingredients ≠ 0 ∨ services &&& f.Picks ≠ 0
        ∨ services &&& f.Probes ≠ 0 ∨ services &&& f.Lights ≠ 0 ∨ services &&& f.Apparatus ≠ 0
        ∨ services &&& f.RepairItem ≠ 0 ∨ services &&& f.Misc ≠ 0 then
      w0 ||| f.Service_Trade
    else w0
  let w2 :=
    if actor.typeName = RefType.NPC ∧ actor.mTransport ≠ [] then w1 ||| f.Service_Travel else w1
  let w3 := if services &&& f.Spells ≠ 0 then w2 ||| f.Service_BuySpells else w2
  let w4 := if services &&& f.Spellmaking ≠ 0 then w3 ||| f.Service_CreateSpells else w3
  let w5 := if services &&& f.Training ≠ 0 then w4 ||| f.Service_Training else w4
  let w6 := if services &&& f.Enchanting ≠ 0 then w5 ||| f.Service_Enchant else w5
  w6

/-- The function `updateTopics`, lines 241-324.  The filter is built while
`mChoice` is `-1`; the saved value `choice` is restored at the end. -/
def updateTopics (ext : Ext W) (s : Sys W) : Sys W :=
  let choice := s.dm.mChoice
  let s1 : Sys W := { s with dm := { s.dm with mChoice := -1, mActorKnownTopics := [] } }
  let r := ext.dialogs.foldl (updateTopicsStep ext s1) (s1.dm.mActorKnownTopics, [])
  { s1 with
    dm := { s1.dm with mActorKnownTopics := r.1, mChoice := choice }
    win := s1.win ++ [WinEvent.setServices (windowServices ext.flags s1.dm.mActor),
      WinEvent.setKeywords (listSort stringCompareNoCase r.2)] }

/-- The loop of `parseText`, lines 108-115, over `mActorKnownTopics`. -/
def parseTextLoop (text : String) (known : StdMap Bool) : List String → StdMap Bool
  | [] => known
  | it :: rest =>
    if (find_str_ci text it 0).isSome then parseTextLoop text (StdMap.set known it true) rest
    else parseTextLoop text known rest

/-- The function `parseText`, lines 105-117. -/
def parseText (ext : Ext W) (s : Sys W) (text : String) : Sys W :=
  updateTopics ext
    { s with dm := { s.dm with
        mKnownTopics := parseTextLoop text s.dm.mKnownTopics s.dm.mActorKnownTopics } }

/-- The function `executeScript`, lines 222-239, with `compile`, lines 168-220:
the code is run only when compilation succeeds. -/
def executeScript (ext : Ext W) (s : Sys W) (script : String) : Sys W :=
  match ext.compile s.world s.dm.mActor script with
  | some code => ext.run code s
  | none => s

/-- The greeting loop of `startDialogue`, lines 146-165, with the filter
`Filter (actor, choice, talkedTo)` of line 144. -/
def greetingLoop (ext : Ext W) (actor : Ptr) (choice : Int) (talkedTo : Bool) (s : Sys W) :
    List Dialogue → Sys W
  | [] => s
  | it :: rest =>
    if it.mType = DialogueType.Greeting then
      match ext.search s.world actor choice talkedTo it with
      | some info =>
        let s1 := parseText ext s info.mResponse
        let s2 : Sys W := { s1 with win := s1.win ++ [WinEvent.addText info.mResponse] }
        let s3 := executeScript ext s2 info.mResultScript
        { s3 with dm := { s3.dm with mLastTopic := it.mId, mLastDialogue := info } }
      | none => greetingLoop ext actor choice talkedTo s rest
    else greetingLoop ext actor choice talkedTo s rest

/-- The function `startDialogue`, lines 119-166. -/
def startDialogue (ext : Ext W) (s : Sys W) (actor : Ptr) : Sys W :=
  let talked := ext.hasTalkedToPlayer s.world actor
  let s1 : Sys W :=
    { dm := { s.dm with
        mChoice := -1, mIsInChoice := false, mActor := actor, mTalkedTo := talked,
        mActorKnownTopics := [] }
      world := ext.talkedToPlayer s.world actor
      win := s.win ++ [WinEvent.pushGuiMode, WinEvent.startDialogue (ext.getName actor)] }
  let s2 := updateTopics ext s1
  greetingLoop ext actor s2.dm.mChoice s2.dm.mTalkedTo s2 ext.dialogs

/-- The part of `keywordSelected` before the final `updateTopics`, lines
328-355. -/
def keywordSelectedBody (ext : Ext W) (s : Sys W) (keyword : String) : Sys W :=
  if s.dm.mIsInChoice = false then
    match StdMap.find s.dm.mDialogueMap keyword with
    | some ndialogue =>
      if ndialogue.mType = DialogueType.Topic then
        match ext.search s.world s.dm.mActor s.dm.mChoice s.dm.mTalkedTo ndialogue with
        | some info =>
          let s1 := parseText ext s info.mResponse
          let s2 : Sys W :=
            { s1 with win := s1.win ++ [WinEvent.addTitle keyword, WinEvent.addText info.mResponse] }
          let s3 := executeScript ext s2 info.mResultScript
          { s3 with dm := { s3.dm with mLastTopic := keyword, mLastDialogue := info } }
        | none => s
      else s
    | none => s
  else s

/-- The function `keywordSelected`, lines 326-358. -/
def keywordSelected (ext : Ext W) (s : Sys W) (keyword : String) : Sys W :=
  updateTopics ext (keywordSelectedBody ext s keyword)

/-- The function `goodbyeSelected`, lines 360-372.  The argument of
`setBaseDisposition` is the `float` sum `getBaseDisposition () +
mPermanentDispositionChange`, converted to the `int` parameter. -/
def goodbyeSelected (ext : Ext W) (s : Sys W) : Sys W :=
  { dm := { s.dm with
      mPermanentDispositionChange := Float32.ofInt 0
      mTemporaryDispositionChange := Float32.ofInt 0 }
    world :=
      if s.dm.mActor.typeName = RefType.NPC then
        ext.setBaseDisposition s.world s.dm.mActor
          (Float32.toInt (Float32.add
            (Float32.ofInt (ext.getBaseDisposition s.world s.dm.mActor))
            s.dm.mPermanentDispositionChange))
      else s.world
    win := s.win ++ [WinEvent.removeGuiMode] }

/-- The part of `questionAnswered` between the assignment of `mChoice` and the
final `updateTopics`, lines 380-399; `s` already has the new `mChoice`. -/
def questionAnsweredBody (ext : Ext W) (s : Sys W) : Sys W :=
  match StdMap.find s.dm.mDialogueMap s.dm.mLastTopic with
  | some dialogue =>
    if dialogue.mType = DialogueType.Topic then
      match ext.search s.world s.dm.mActor s.dm.mChoice s.dm.mTalkedTo dialogue with
      | some info =>
        let s1 : Sys W :=
          { s with dm := { s.dm with mChoiceMap := [], mChoice := -1, mIsInChoice := false } }
        let s2 := parseText ext s1 info.mResponse
        let s3 : Sys W := { s2 with win := s2.win ++ [WinEvent.addText info.mResponse] }
        let s4 := executeScript ext s3 info.mResultScript
        { s4 with dm := { s4.dm with mLastTopic := s4.dm.mLastTopic, mLastDialogue := info } }
      | none => s
    else s
  | none => s

/-- The function `questionAnswered`, lines 374-403. -/
def questionAnswered (ext : Ext W) (s : Sys W) (answer : String) : Sys W :=
  match StdMap.find s.dm.mChoiceMap answer with
  | some choice =>
    updateTopics ext (questionAnsweredBody ext { s with dm := { s.dm with mChoice := choice } })
  | none => s

/-- The function `printError`, lines 405-409. -/
def printError (s : Sys W) (error : String) : Sys W :=
  { s with win := s.win ++ [WinEvent.addText error] }

/-- The function `askQuestion`, lines 411-417. -/
def askQuestion (s : Sys W) (question : String) (choice : Int) : Sys W :=
  { s with
    dm := { s.dm with
      mChoiceMap := StdMap.set s.dm.mChoiceMap (toLower question) choice, mIsInChoice := true }
    win := s.win ++ [WinEvent.askQuestion question] }

/-- The function `getActor`, lines 419-422. -/
def getActor (s : Sys W) : Ptr :=
  s.dm.mActor

/-- The function `goodbye`, lines 424-429. -/
def goodbye (s : Sys W) : Sys W :=
  { s with win := s.win ++ [WinEvent.goodbye] }

/-- The clamping of lines 442-446: the new value of
`mTemporaryDispositionChange`, from the current disposition and the value
after line 438.  The two tests compare the `float` sum `curDisp +
mTemporaryDispositionChange` with the constants converted to `float`; the
values assigned are the `int` values `-curDisp` and `100 - curDisp`, converted
to `float`. -/
def clampTemporary (curDisp : Int) (t : Float32) : Float32 :=
  if Float32.lt (Float32.add (Float32.ofInt curDisp) t) (Float32.ofInt 0) then
    Float32.ofInt (-curDisp)
  else if Float32.lt (Float32.ofInt 100) (Float32.add (Float32.ofInt curDisp) t) then
    Float32.ofInt (100 - curDisp)
  else t

/-- The message key of lines 455-466. -/
def persuadeText (ext : Ext W) (type : Int) (success : Bool) : String :=
  (if type = ext.PT_Admire then "sAdmire"
   else if type = ext.PT_Taunt then "sTaunt"
   else if type = ext.PT_Intimidate then "sIntimidate"
   else "sBribe") ++ (if success then "Success" else "Fail")

/-- The function `persuade`, lines 431-472. -/
def persuade (ext : Ext W) (s : Sys W) (type : Int) : Sys W :=
  let r := ext.getPersuasionDispositionChange s.world s.dm.mActor type
    s.dm.mTemporaryDispositionChange
  let success := r.1.1
  let temp := r.1.2.1
  let perm := r.1.2.2
  let curDisp := ext.getDerivedDisposition r.2 s.dm.mActor
  { dm := { s.dm with
      mTemporaryDispositionChange :=
        clampTemporary curDisp (Float32.add s.dm.mTemporaryDispositionChange temp)
      mPermanentDispositionChange := Float32.add s.dm.mPermanentDispositionChange perm }
    world := if success then ext.skillUsageSucceeded r.2 else r.2
    win := s.win ++
      [WinEvent.addTitle (ext.replaceTags ("#\x7b" ++ persuadeText ext type success ++ "\x7d"))] }

/-- The function `getTemporaryDispositionChange`, lines 474-477. -/
def getTemporaryDispositionChange (s : Sys W) : Int :=
  Float32.toInt s.dm.mTemporaryDispositionChange

/-- The function `applyTemporaryDispositionChange`, lines 479-482. -/
def applyTemporaryDispositionChange (s : Sys W) (delta : Int) : Sys W :=
  { s with dm := { s.dm with
      mTemporaryDispositionChange :=
        Float32.add s.dm.mTemporaryDispositionChange (Float32.ofInt delta) } }

/-! ## Sequences of calls -/

/-- A call of a member function by the window, by a script or by the rest of
the engine. -/
inductive Op
  | addTopic (topic : String)
  | parseText (text : String)
  | startDialogue (actor : Ptr)
  | updateTopics
  | keywordSelected (keyword : String)
  | goodbyeSelected
  | questionAnswered (answer : String)
  | printError (error : String)
  | askQuestion (question : String) (choice : Int)
  | goodbye
  | persuade (type : Int)
  | applyTemporaryDispositionChange (delta : Int)
deriving DecidableEq, Repr

/-- The state after the call `op`. -/
def step (ext : Ext W) (s : Sys W) : Op → Sys W
  | .addTopic topic => addTopic s topic
  | .parseText text => parseText ext s text
  | .startDialogue actor => startDialogue ext s actor
  | .updateTopics => updateTopics ext s
  | .keywordSelected keyword => keywordSelected ext s keyword
  | .goodbyeSelected => goodbyeSelected ext s
  | .questionAnswered answer => questionAnswered ext s answer
  | .printError error => printError s error
  | .askQuestion question choice => askQuestion s question choice
  | .goodbye => goodbye s
  | .persuade type => persuade ext s type
  | .applyTemporaryDispositionChange delta => applyTemporaryDispositionChange s delta

/-- The state after the calls `ops`, made in this order. -/
def steps (ext : Ext W) (s : Sys W) : List Op → Sys W
  | [] => s
  | op :: ops => steps ext (step ext s op) ops

end Operations

/-! ## A sample environment

A small store, filter and script interpreter on which the statements below are
evaluated. -/

/-- The state of the collaborators in the sample environment: the identifiers
of the actors that have talked to the player, one base disposition for all
actors, and a journal index that scripts can set. -/
structure DemoWorld where
  talked : List String
  disposition : Int
  journal : Nat
deriving DecidableEq, Repr

/-- The store of the sample environment, in iteration order. -/
def demoDialogs : List Dialogue :=
  [ ⟨"Background", DialogueType.Topic,
      [⟨"always", "I am a guard.", "", ""⟩]⟩,
    ⟨"Greeting 0", DialogueType.Greeting,
      [⟨"first meeting", "Welcome, stranger. Will you join the Mages Guild?", "choice", ""⟩,
       ⟨"always", "You again. Try visiting the Mages Guild", "", ""⟩]⟩,
    ⟨"Greeting 1", DialogueType.Greeting,
      [⟨"always", "Move along.", "", ""⟩]⟩,
    ⟨"Mages Guild", DialogueType.Topic,
      [⟨"choice 1", "Then welcome to the guild.", "journal", ""⟩,
       ⟨"choice 2", "A pity.", "", ""⟩,
       ⟨"always", "Do you want to join the guild?", "choice", ""⟩]⟩,
    ⟨"Secret", DialogueType.Topic,
      [⟨"journal", "Now that you are a member: the password is xyzzy.", "", ""⟩]⟩,
    ⟨"Voice 0", DialogueType.Voice,
      [⟨"always", "Hello", "", "hello.wav"⟩]⟩ ]

/-- The condition of an info of the sample store, encoded in its `mId`. -/
def demoCondition (w : DemoWorld) (choice : Int) (talkedTo : Bool) (info : DialInfo) : Bool :=
  info.mId = "always"
    || (info.mId = "choice 1" && choice = 1)
    || (info.mId = "choice 2" && choice = 2)
    || (info.mId = "first meeting" && talkedTo = false)
    || (info.mId = "journal" && 0 < w.journal)

/-- The filter of the sample environment: the first info of the record whose
condition holds. -/
def demoSearch (w : DemoWorld) (_actor : Ptr) (choice : Int) (talkedTo : Bool)
    (dialogue : Dialogue) : Option DialInfo :=
  dialogue.mInfo.find? (demoCondition w choice talkedTo)

/-- The script compiler of the sample environment: `"choice"` compiles to
`[1]`, `"journal"` to `[2]`, the empty script to no code, anything else is a
compile error. -/
def demoCompile (_w : DemoWorld) (_actor : Ptr) (cmd : String) : Option Code :=
  if cmd = "choice" then some [1]
  else if cmd = "journal" then some [2]
  else if cmd = "" then some []
  else none

/-- The interpreter of the sample environment: code `[1]` asks the questions
`"Yes"` (choice 1) and `"No"` (choice 2) through `askQuestion`, code `[2]` sets
the journal index to 1. -/
def demoRun (code : Code) (s : Sys DemoWorld) : Sys DemoWorld :=
  if code = [1] then askQuestion (askQuestion s "Yes" 1) "No" 2
  else if code = [2] then { s with world := { s.world with journal := 1 } }
  else s

/-- The service flags as declared in `loadnpc.hpp` and `dialogue.hpp`. -/
def demoFlags : ServiceFlags where
  Weapon := 0x00001
  Armor := 0x00002
  Clothing := 0x00004
  Books := 0x00008
  Ingredients := 0x00010
  Picks := 0x00020
  Probes := 0x00040
  Lights := 0x00080
  Apparatus := 0x00100
  RepairItem := 0x00200
  Misc := 0x00400
  Spells := 0x00800
  Training := 0x04000
  Spellmaking := 0x08000
  Enchanting := 0x10000
  Service_Trade := 0x01
  Service_BuySpells := 0x02
  Service_CreateSpells := 0x04
  Service_Enchant := 0x08
  Service_Training := 0x10
  Service_Travel := 0x20

/-- The collaborators of the sample environment.  A persuasion of type 0
(admire) succeeds with a temporary change of 20 and a permanent change of 5,
any other type fails with a temporary change of -10 and a permanent change of
0. -/
def demoExt : Ext DemoWorld where
  dialogs := demoDialogs
  search := demoSearch
  hasTalkedToPlayer := fun w actor => decide (actor.mRefId ∈ w.talked)
  talkedToPlayer := fun w actor =>
    if actor.mRefId ∈ w.talked then w else { w with talked := actor.mRefId :: w.talked }
  getName := fun actor => actor.mRefId
  getBaseDisposition := fun w _ => w.disposition
  setBaseDisposition := fun w _ d => { w with disposition := d }
  getPersuasionDispositionChange := fun w _ type _ =>
    if type = 0 then ((true, Float32.finite 20, Float32.finite 5), w)
    else ((false, Float32.finite (-10), Float32.finite 0), w)
  getDerivedDisposition := fun w _ => w.disposition
  skillUsageSucceeded := fun w => w
  PT_Admire := 0
  PT_Taunt := 2
  PT_Intimidate := 1
  replaceTags := fun t => t
  compile := demoCompile
  run := demoRun
  flags := demoFlags

/-- An NPC of the sample environment, a trader of weapons. -/
def demoActor : Ptr where
  mRefId := "fargoth"
  typeName := RefType.NPC
  mHasAI := true
  mServices := 0x00001
  mTransport := []

/-- The sample state right after construction: nobody has talked to the player,
the base disposition is 95. -/
def demoInit : Sys DemoWorld where
  dm := DialogueManager.create demoDialogs demoActor false
  world := ⟨[], 95, 0⟩
  win := []

/-- The sample state after `startDialogue` with the sample actor: the greeting
for a first meeting has been emitted and its script has asked a question, so
a forced choice is pending and the last topic is the greeting record. -/
def demoGreeted : Sys DemoWorld :=
  startDialogue demoExt demoInit demoActor

/-- The sample state right after construction when the sample actor has
already talked to the player. -/
def demoReturning : Sys DemoWorld where
  dm := DialogueManager.create demoDialogs demoActor false
  world := ⟨["fargoth"], 95, 0⟩
  win := []

/-- The sample state after `startDialogue` with an actor known to the player
and the selection of the keyword `"mages guild"`: the response has asked a
question, so a forced choice is pending and the last topic is
`"mages guild"`. -/
def demoAsked : Sys DemoWorld :=
  keywordSelected demoExt (startDialogue demoExt demoReturning demoActor) "mages guild"

/-- The sample state after construction and one `updateTopics`: the actor
would talk about `"background"` and `"mages guild"`, the player knows no
topic. -/
def demoTopics : Sys DemoWorld :=
  updateTopics demoExt demoInit

/-- The sample state after `startDialogue` with an actor known to the player:
the greeting without question has been emitted, no choice is pending, and the
player knows the topic `"mages guild"`. -/
def demoBrowsing : Sys DemoWorld :=
  startDialogue demoExt demoReturning demoActor

/-- A variant of the sample collaborators in which every persuasion succeeds
with a temporary change of `2 ^ -20` and a permanent change of 0. -/
def demoTinyExt : Ext DemoWorld :=
  { demoExt with
    getPersuasionDispositionChange := fun w _ _ _ =>
      ((true, Float32.finite (1 / 2 ^ 20), Float32.finite 0), w) }

/-- The sample state right after construction, with a disposition of 100. -/
def demoFull : Sys DemoWorld where
  dm := DialogueManager.create demoDialogs demoActor false
  world := ⟨[], 100, 0⟩
  win := []

/-- A second sample store: two Topic records whose ids differ in case only, a
greeting whose script writes the journal, and a Topic record that resolves
once the journal is written. -/
def demoRumorDialogs : List Dialogue :=
  [ ⟨"Rumors", DialogueType.Topic,
      [⟨"always", "They say the guild is hiring.", "", ""⟩]⟩,
    ⟨"rumors", DialogueType.Topic,
      [⟨"always", "I have heard nothing.", "", ""⟩]⟩,
    ⟨"Greeting 0", DialogueType.Greeting,
      [⟨"always", "Welcome, new member.", "journal", ""⟩]⟩,
    ⟨"Secret", DialogueType.Topic,
      [⟨"journal", "Now that you are a member: the password is xyzzy.", "", ""⟩]⟩ ]

/-- The sample collaborators with the second sample store. -/
def demoRumorExt : Ext DemoWorld :=
  { demoExt with dialogs := demoRumorDialogs }

/-- The state right after construction over the second sample store. -/
def demoRumorInit : Sys DemoWorld where
  dm := DialogueManager.create demoRumorDialogs demoActor false
  world := ⟨[], 95, 0⟩
  win := []

/-! ## Canonical form of the keys -/

/-- Every key of `mKnownTopics`, of `mChoiceMap` and of `mDialogueMap` and
every element of `mActorKnownTopics` is in lower-case form, that is, equal to
its own `toLower`. -/
def LowerCaseKeys (dm : DialogueManager) : Prop :=
  (∀ k ∈ StdMap.keys dm.mKnownTopics, toLower k = k)
  ∧ (∀ k ∈ StdMap.keys dm.mChoiceMap, toLower k = k)
  ∧ (∀ k ∈ StdMap.keys dm.mDialogueMap, toLower k = k)
  ∧ (∀ k ∈ dm.mActorKnownTopics, toLower k = k)

instance (dm : DialogueManager) : Decidable (LowerCaseKeys dm) := by
  unfold LowerCaseKeys
  infer_instance

/-! ## Auxiliary lemmas -/

section Lemmas

variable {W : Type}

theorem StdMap.find_eq_none_iff {β : Type} (m : StdMap β) (k : String) :
    StdMap.find m k = none ↔ k ∉ StdMap.keys m := by
  induction m with
  | nil => simp [StdMap.find, StdMap.keys]
  | cons p m ih =>
    obtain ⟨k', v⟩ := p
    by_cases h : k' = k
    · simp [StdMap.find, StdMap.keys, h]
    · have h' : ¬ k = k' := fun e => h e.symm
      simpa [StdMap.find, StdMap.keys, h, h'] using ih

theorem StdMap.find_isSome_iff {β : Type} (m : StdMap β) (k : String) :
    (StdMap.find m k).isSome = true ↔ k ∈ StdMap.keys m := by
  rw [← not_iff_not, ← StdMap.find_eq_none_iff]
  cases StdMap.find m k <;> simp

theorem StdMap.find_set {β : Type} (m : StdMap β) (k k' : String) (v : β) :
    StdMap.find (StdMap.set m k v) k' = if k = k' then some v else StdMap.find m k' := by
  induction m with
  | nil => simp [StdMap.find, StdMap.set]
  | cons p m ih =>
    obtain ⟨k₀, v₀⟩ := p
    by_cases h : k₀ = k
    · subst h
      by_cases h' : k₀ = k' <;> simp [StdMap.find, StdMap.set, h']
    · by_cases h' : k₀ = k'
      · subst h'
        have : ¬ k = k₀ := fun e => h e.symm
        simp [StdMap.find, StdMap.set, h, this]
      · simp [StdMap.find, StdMap.set, h, h', ih]

/-- The loop of `updateTopics` appends, in store order, the lower-cased ids of
the Topic records for which the filter finds an info, and to the keyword list
the ids of those whose lower-cased id is a key of `mKnownTopics`. -/
theorem updateTopics_foldl (ext : Ext W) (s : Sys W) (ds : List Dialogue)
    (acc : List String × List String) :
    ds.foldl (updateTopicsStep ext s) acc =
      (acc.1 ++ (ds.filter (fun d => decide (d.mType = DialogueType.Topic)
            && (ext.search s.world s.dm.mActor s.dm.mChoice s.dm.mTalkedTo d).isSome)).map
          (fun d => toLower d.mId),
       acc.2 ++ (ds.filter (fun d => decide (d.mType = DialogueType.Topic)
            && (ext.search s.world s.dm.mActor s.dm.mChoice s.dm.mTalkedTo d).isSome
            && (StdMap.find s.dm.mKnownTopics (toLower d.mId)).isSome)).map
          (fun d => d.mId)) := by
  induction ds generalizing acc with
  | nil => simp
  | cons d ds ih =>
    rw [List.foldl_cons, ih]
    unfold updateTopicsStep
    by_cases h1 : d.mType = DialogueType.Topic
    · by_cases h2 : (ext.search s.world s.dm.mActor s.dm.mChoice s.dm.mTalkedTo d).isSome = true
      · by_cases h3 : (StdMap.find s.dm.mKnownTopics (toLower d.mId)).isSome = true
        · simp [h1, h2, h3, List.filter_cons]
        · simp [h1, h2, h3, List.filter_cons]
      · simp [h1, h2, List.filter_cons]
    · simp [h1, List.filter_cons]

/-- The effect of `updateTopics`: the list `mActorKnownTopics` is recomputed
with the filter `Filter (mActor, -1, mTalkedTo)`, the services and the sorted
keyword list are sent to the window, and nothing else changes. -/
theorem updateTopics_eq (ext : Ext W) (s : Sys W) :
    updateTopics ext s =
      { dm := { s.dm with
          mActorKnownTopics :=
            (ext.dialogs.filter (fun d => decide (d.mType = DialogueType.Topic)
              && (ext.search s.world s.dm.mActor (-1) s.dm.mTalkedTo d).isSome)).map
              (fun d => toLower d.mId) }
        world := s.world
        win := s.win ++ [WinEvent.setServices (windowServices ext.flags s.dm.mActor),
          WinEvent.setKeywords (listSort stringCompareNoCase
            ((ext.dialogs.filter (fun d => decide (d.mType = DialogueType.Topic)
              && (ext.search s.world s.dm.mActor (-1) s.dm.mTalkedTo d).isSome
              && (StdMap.find s.dm.mKnownTopics (toLower d.mId)).isSome)).map
              (fun d => d.mId)))] } := by
  unfold updateTopics
  simp only [updateTopics_foldl]
  simp

/-! ### The permanent disposition change is written by `persuade` and
`goodbyeSelected` only -/

theorem exponent32_spec (a : ℚ) (n : Nat) :
    exponent32 a n = -126 ∨ (2 : ℚ) ^ (exponent32 a n) ≤ a := by
  induction n with
  | zero => exact Or.inl rfl
  | succ n ih =>
    unfold exponent32
    by_cases h : (2 : ℚ) ^ ((n : Int) + 1 - 126) ≤ a
    · rw [if_pos h]; exact Or.inr h
    · rw [if_neg h]; exact ih

theorem roundHalfEven_intCast (z : ℤ) : roundHalfEven (z : ℚ) = z := by
  unfold roundHalfEven
  simp

theorem roundMagnitude_natCast (m : ℕ) (h2 : m ≤ 2 ^ 24) :
    roundMagnitude (m : ℚ) = m := by
  unfold roundMagnitude
  generalize he : exponent32 (m : ℚ) 253 = e
  have hs := exponent32_spec (m : ℚ) 253
  rw [he] at hs
  have hm : (m : ℚ) ≤ (2 : ℚ) ^ (24 : ℤ) := by
    have h : ((m : ℕ) : ℚ) ≤ ((2 ^ 24 : ℕ) : ℚ) := Nat.cast_le.2 h2
    have e : ((2 ^ 24 : ℕ) : ℚ) = (2 : ℚ) ^ (24 : ℤ) := by norm_num
    rw [e] at h
    exact h
  by_cases h23 : e ≤ 23
  · obtain ⟨t, ht⟩ : ∃ t : ℕ, e - 23 = -(t : ℤ) := ⟨(23 - e).toNat, by omega⟩
    rw [ht, zpow_neg, zpow_natCast, div_inv_eq_mul]
    have hz : (m : ℚ) * 2 ^ t = (((m * 2 ^ t : ℕ) : ℤ) : ℚ) := by push_cast; ring
    rw [hz, roundHalfEven_intCast]
    push_cast
    field_simp
  · have h24 : (2 : ℚ) ^ e ≤ (m : ℚ) := by
      rcases hs with h | h
      · omega
      · exact h
    have hle : e ≤ 24 := by
      by_contra hc
      have h25 : (2 : ℚ) ^ (25 : ℤ) ≤ (2 : ℚ) ^ e :=
        zpow_le_zpow_right₀ (by norm_num) (by omega)
      have : (2 : ℚ) ^ (25 : ℤ) ≤ (2 : ℚ) ^ (24 : ℤ) := le_trans h25 (le_trans h24 hm)
      norm_num at this
    have hee : e = 24 := by omega
    subst hee
    have e24 : (2 : ℚ) ^ (24 : ℤ) = 2 ^ (24 : ℕ) := by norm_num
    have hmq : (m : ℚ) = 2 ^ (24 : ℕ) := le_antisymm (e24 ▸ hm) (e24 ▸ h24)
    rw [hmq]
    have hz : ((2 : ℚ) ^ 24 / 2 ^ ((24 : ℤ) - 23)) = (((2 ^ 23 : ℕ) : ℤ) : ℚ) := by norm_num
    rw [hz, roundHalfEven_intCast]
    norm_num

/-- An integer of magnitude at most `2 ^ 24` is a `float`. -/
theorem round32_intCast (z : ℤ) (h : |z| ≤ 2 ^ 24) : round32 (z : ℚ) = Float32.finite z := by
  unfold round32
  by_cases h0 : (z : ℚ) = 0
  · rw [if_pos h0, h0]
  · rw [if_neg h0]
    have habs : |(z : ℚ)| = ((z.natAbs : ℕ) : ℚ) := by
      rw [← Int.cast_abs, Int.abs_eq_natAbs, Int.cast_natCast]
    have hn : z.natAbs ≤ 2 ^ 24 := by
      have := Int.abs_eq_natAbs z
      omega
    rw [habs, roundMagnitude_natCast _ hn]
    have hsmall : ¬ ((2 : ℚ) ^ (128 : ℕ) ≤ ((z.natAbs : ℕ) : ℚ)) := by
      have h1 : ((z.natAbs : ℕ) : ℚ) ≤ ((2 ^ 24 : ℕ) : ℚ) := by exact_mod_cast hn
      have h2 : ((2 ^ 24 : ℕ) : ℚ) < (2 : ℚ) ^ (128 : ℕ) := by norm_num
      exact not_le.2 (lt_of_le_of_lt h1 h2)
    rw [if_neg hsmall]
    by_cases hneg : (z : ℚ) < 0
    · rw [if_pos hneg]; congr 1; rw [← habs, abs_of_neg hneg]; ring
    · rw [if_neg hneg]; congr 1; rw [← habs, abs_of_nonneg (not_lt.1 hneg)]

theorem ofInt_exact (z : ℤ) (h : |z| ≤ 2 ^ 24) : Float32.ofInt z = Float32.finite z :=
  round32_intCast z h

theorem ofInt_zero : Float32.ofInt 0 = Float32.finite 0 := by
  unfold Float32.ofInt round32
  simp

theorem ofInt_hundred : Float32.ofInt 100 = Float32.finite 100 := by
  have h := ofInt_exact 100 (by norm_num)
  simpa using h

theorem round32_ne_nan (x : ℚ) : round32 x ≠ Float32.nan := by
  unfold round32
  split_ifs <;> exact Float32.noConfusion

theorem add_finite_ne_nan (a : ℚ) (y : Float32) (hy : y ≠ Float32.nan) :
    Float32.add (Float32.finite a) y ≠ Float32.nan := by
  cases y with
  | finite b => exact round32_ne_nan _
  | inf negative => exact Float32.noConfusion
  | nan => exact absurd rfl hy

/-- Rounding at work: `0.1` and `0.9` are not `float` values, the `float` sum
of their nearest `float` values is 1, the `float` sum of 95 and `1 - 2 ^ -24`
is 96, and the `float` sum of 100 and `2 ^ -20` is 100. -/
theorem round32_examples :
    round32 (1 / 10) = Float32.finite (13421773 / 2 ^ 27)
    ∧ round32 (9 / 10) = Float32.finite (15099494 / 2 ^ 24)
    ∧ Float32.add (Float32.finite (15099494 / 2 ^ 24)) (Float32.finite (13421773 / 2 ^ 27))
        = Float32.finite 1
    ∧ Float32.add (Float32.ofInt 95) (Float32.finite (1 - 1 / 2 ^ 24)) = Float32.finite 96
    ∧ Float32.add (Float32.ofInt 100) (Float32.finite (1 / 2 ^ 20)) = Float32.finite 100
    ∧ round32 (2 ^ 128 - 2 ^ 103) = Float32.inf false
    ∧ round32 (1 / 2 ^ 150) = Float32.finite 0
    ∧ round32 (3 / 2 ^ 150) = Float32.finite (1 / 2 ^ 148) := by
  decide!

theorem strFindAux_isSome (needle hay : List Char) (i : Nat) :
    (strFindAux needle hay i).isSome = true ↔ needle <:+: hay := by
  induction hay generalizing i with
  | nil =>
    unfold strFindAux
    by_cases h : needle = [] <;> simp [h]
  | cons c cs ih =>
    unfold strFindAux
    rw [List.infix_cons_iff]
    by_cases hp : needle.isPrefixOf (c :: cs) = true
    · simp only [hp, if_true, Option.isSome_some, true_iff]
      exact Or.inl (List.isPrefixOf_iff_prefix.1 hp)
    · have hp' : ¬ needle <+: c :: cs := fun h => hp (List.isPrefixOf_iff_prefix.2 h)
      simp only [hp, if_false, Bool.false_eq_true]
      rw [ih]
      simp [hp']

/-- The test `find_str_ci (text, topic, 0) != npos` holds exactly when the
lower-cased topic occurs as a contiguous part of the lower-cased text. -/
theorem find_str_ci_isSome (text topic : String) :
    (find_str_ci text topic 0).isSome = true ↔ (toLower topic).data <:+: (toLower text).data := by
  simp [find_str_ci, strFind, strFindAux_isSome]

theorem parseTextLoop_find (text : String) (known : StdMap Bool) (topics : List String)
    (topic : String) :
    StdMap.find (parseTextLoop text known topics) topic
      = if topic ∈ topics ∧ (find_str_ci text topic 0).isSome = true then some true
        else StdMap.find known topic := by
  induction topics generalizing known with
  | nil => simp [parseTextLoop]
  | cons it rest ih =>
    unfold parseTextLoop
    by_cases hit : (find_str_ci text it 0).isSome = true
    · rw [if_pos hit, ih, StdMap.find_set]
      by_cases he : it = topic
      · subst he
        simp [hit]
      · have he' : ¬ topic = it := fun e => he e.symm
        simp [he, he']
    · rw [if_neg hit, ih]
      by_cases he : topic = it
      · subst he
        by_cases hr : topic ∈ rest <;> simp [hit, hr]
      · simp [he]

/-! ### The topic list after the greeting loop -/

theorem executeScript_actorKnownTopics (ext : Ext W) (s : Sys W) (script : String)
    (hkeep : ∀ code st, (ext.run code st).dm.mActorKnownTopics = st.dm.mActorKnownTopics) :
    (executeScript ext s script).dm.mActorKnownTopics = s.dm.mActorKnownTopics := by
  unfold executeScript
  cases ext.compile s.world s.dm.mActor script with
  | none => rfl
  | some code => exact hkeep code s

/-- When the greeting loop starts with a topic list that is the one
`updateTopics` computes in that state, it ends with the same list, provided
that scripts do not write `mActorKnownTopics`. -/
theorem greetingLoop_actorKnownTopics (ext : Ext W) (actor : Ptr) (choice : Int)
    (talkedTo : Bool) (s : Sys W) (ds : List Dialogue)
    (hkeep : ∀ code st, (ext.run code st).dm.mActorKnownTopics = st.dm.mActorKnownTopics)
    (hs : s.dm.mActorKnownTopics
      = (ext.dialogs.filter (fun d => decide (d.mType = DialogueType.Topic)
          && (ext.search s.world s.dm.mActor (-1) s.dm.mTalkedTo d).isSome)).map
          (fun d => toLower d.mId)) :
    (greetingLoop ext actor choice talkedTo s ds).dm.mActorKnownTopics
      = (ext.dialogs.filter (fun d => decide (d.mType = DialogueType.Topic)
          && (ext.search s.world s.dm.mActor (-1) s.dm.mTalkedTo d).isSome)).map
          (fun d => toLower d.mId) := by
  induction ds with
  | nil => exact hs
  | cons d ds ih =>
    unfold greetingLoop
    by_cases hg : d.mType = DialogueType.Greeting
    · cases hf : ext.search s.world actor choice talkedTo d with
      | none => simpa [hg, hf] using ih
      | some info =>
        simp [hg, hf, executeScript_actorKnownTopics ext _ _ hkeep, parseText, updateTopics_eq]
    · simpa [hg] using ih

/-! ### The greeting loop stops at the first match -/

theorem greetingLoop_none (ext : Ext W) (actor : Ptr) (choice : Int) (talkedTo : Bool)
    (s : Sys W) (ds : List Dialogue)
    (hno : ∀ d ∈ ds, d.mType = DialogueType.Greeting →
      ext.search s.world actor choice talkedTo d = none) :
    greetingLoop ext actor choice talkedTo s ds = s := by
  induction ds with
  | nil => rfl
  | cons d ds ih =>
    have ih' := ih (fun d' hd' => hno d' (List.mem_cons_of_mem _ hd'))
    unfold greetingLoop
    by_cases hg : d.mType = DialogueType.Greeting
    · simp [hg, hno d (List.mem_cons_self _ _) hg, ih']
    · simp [hg, ih']

theorem greetingLoop_first (ext : Ext W) (actor : Ptr) (choice : Int) (talkedTo : Bool)
    (s : Sys W) (pre post : List Dialogue) (d : Dialogue) (info : DialInfo)
    (hg : d.mType = DialogueType.Greeting)
    (hd : ext.search s.world actor choice talkedTo d = some info)
    (hno : ∀ d' ∈ pre, d'.mType = DialogueType.Greeting →
      ext.search s.world actor choice talkedTo d' = none) :
    greetingLoop ext actor choice talkedTo s (pre ++ d :: post)
      = { executeScript ext
            { parseText ext s info.mResponse with
              win := (parseText ext s info.mResponse).win ++ [WinEvent.addText info.mResponse] }
            info.mResultScript with
          dm := { (executeScript ext
              { parseText ext s info.mResponse with
                win := (parseText ext s info.mResponse).win
                  ++ [WinEvent.addText info.mResponse] }
              info.mResultScript).dm with
            mLastTopic := d.mId, mLastDialogue := info } } := by
  induction pre with
  | nil =>
    rw [List.nil_append]
    unfold greetingLoop
    simp [hg, hd]
  | cons d' pre ih =>
    have ih' := ih (fun x hx => hno x (List.mem_cons_of_mem _ hx))
    rw [List.cons_append]
    unfold greetingLoop
    by_cases hg' : d'.mType = DialogueType.Greeting
    · simp [hg', hno d' (List.mem_cons_self _ _) hg', ih']
    · simp [hg', ih']

/-! ### The member `mTalkedTo` is written by `startDialogue` only, and is the
flag every filter is built with -/

theorem executeScript_talkedTo (ext : Ext W) (s : Sys W) (script : String)
    (hscript : ∀ code st, (ext.run code st).dm.mTalkedTo = st.dm.mTalkedTo) :
    (executeScript ext s script).dm.mTalkedTo = s.dm.mTalkedTo := by
  unfold executeScript
  cases ext.compile s.world s.dm.mActor script with
  | none => rfl
  | some code => exact hscript code s

theorem greetingLoop_talkedTo (ext : Ext W) (actor : Ptr) (choice : Int) (talkedTo : Bool)
    (s : Sys W) (ds : List Dialogue)
    (hscript : ∀ code st, (ext.run code st).dm.mTalkedTo = st.dm.mTalkedTo) :
    (greetingLoop ext actor choice talkedTo s ds).dm.mTalkedTo = s.dm.mTalkedTo := by
  induction ds with
  | nil => rfl
  | cons d ds ih =>
    unfold greetingLoop
    by_cases hg : d.mType = DialogueType.Greeting
    · cases hs : ext.search s.world actor choice talkedTo d with
      | none => simpa [hg, hs] using ih
      | some info =>
        simp [hg, hs, executeScript_talkedTo ext _ _ hscript, parseText, updateTopics_eq]
    · simpa [hg] using ih

theorem keywordSelectedBody_talkedTo (ext : Ext W) (s : Sys W) (keyword : String)
    (hscript : ∀ code st, (ext.run code st).dm.mTalkedTo = st.dm.mTalkedTo) :
    (keywordSelectedBody ext s keyword).dm.mTalkedTo = s.dm.mTalkedTo := by
  unfold keywordSelectedBody
  split_ifs with h1
  · split
    · split_ifs with h2
      · split
        · simp [executeScript_talkedTo ext _ _ hscript, parseText, updateTopics_eq]
        · rfl
      · rfl
    · rfl
  · rfl

theorem questionAnsweredBody_talkedTo (ext : Ext W) (s : Sys W)
    (hscript : ∀ code st, (ext.run code st).dm.mTalkedTo = st.dm.mTalkedTo) :
    (questionAnsweredBody ext s).dm.mTalkedTo = s.dm.mTalkedTo := by
  unfold questionAnsweredBody
  split
  · split_ifs with h2
    · split
      · simp [executeScript_talkedTo ext _ _ hscript, parseText, updateTopics_eq]
      · rfl
    · rfl
  · rfl

theorem step_talkedTo (ext : Ext W) (s : Sys W) (op : Op)
    (hscript : ∀ code st, (ext.run code st).dm.mTalkedTo = st.dm.mTalkedTo)
    (hop : ∀ a, op ≠ Op.startDialogue a) :
    (step ext s op).dm.mTalkedTo = s.dm.mTalkedTo := by
  cases op with
  | addTopic topic => rfl
  | parseText text => simp [step, parseText, updateTopics_eq]
  | startDialogue actor => exact absurd rfl (hop actor)
  | updateTopics => simp [step, updateTopics_eq]
  | keywordSelected keyword =>
    simp [step, keywordSelected, updateTopics_eq, keywordSelectedBody_talkedTo ext _ _ hscript]
  | goodbyeSelected => rfl
  | questionAnswered answer =>
    simp only [step, questionAnswered]
    split
    · simp [updateTopics_eq, questionAnsweredBody_talkedTo ext _ hscript]
    · rfl
  | printError error => rfl
  | askQuestion question choice => rfl
  | goodbye => rfl
  | persuade type => rfl
  | applyTemporaryDispositionChange delta => rfl

theorem updateTopics_search (ext : Ext W) (search' : W → Ptr → Int → Bool → Dialogue → Option DialInfo)
    (s : Sys W)
    (h : ∀ w a c d, search' w a c s.dm.mTalkedTo d = ext.search w a c s.dm.mTalkedTo d) :
    updateTopics { ext with search := search' } s = updateTopics ext s := by
  rw [updateTopics_eq, updateTopics_eq]
  simp [h]

theorem parseText_search (ext : Ext W) (search' : W → Ptr → Int → Bool → Dialogue → Option DialInfo)
    (s : Sys W) (text : String)
    (h : ∀ w a c d, search' w a c s.dm.mTalkedTo d = ext.search w a c s.dm.mTalkedTo d) :
    parseText { ext with search := search' } s text = parseText ext s text := by
  unfold parseText
  exact updateTopics_search ext search' _ h

theorem greetingLoop_search (ext : Ext W)
    (search' : W → Ptr → Int → Bool → Dialogue → Option DialInfo)
    (actor : Ptr) (choice : Int) (s : Sys W) (ds : List Dialogue)
    (h : ∀ w a c d, search' w a c s.dm.mTalkedTo d = ext.search w a c s.dm.mTalkedTo d) :
    greetingLoop { ext with search := search' } actor choice s.dm.mTalkedTo s ds
      = greetingLoop ext actor choice s.dm.mTalkedTo s ds := by
  induction ds with
  | nil => rfl
  | cons d ds ih =>
    unfold greetingLoop
    by_cases hg : d.mType = DialogueType.Greeting
    · simp only [hg, if_true, h]
      cases hs : ext.search s.world actor choice s.dm.mTalkedTo d with
      | none => simpa using ih
      | some info =>
        simp only [parseText_search ext search' s _ h]
        rfl
    · simpa [hg] using ih

theorem startDialogue_search (ext : Ext W)
    (search' : W → Ptr → Int → Bool → Dialogue → Option DialInfo) (s : Sys W) (actor : Ptr)
    (h : ∀ w a c d, search' w a c (ext.hasTalkedToPlayer s.world actor) d
      = ext.search w a c (ext.hasTalkedToPlayer s.world actor) d) :
    startDialogue { ext with search := search' } s actor = startDialogue ext s actor := by
  unfold startDialogue
  simp only []
  rw [updateTopics_search ext search' _ h]
  have ht : (updateTopics ext
      { dm := { s.dm with
          mChoice := -1, mIsInChoice := false, mActor := actor,
          mTalkedTo := ext.hasTalkedToPlayer s.world actor, mActorKnownTopics := [] }
        world := ext.talkedToPlayer s.world actor
        win := s.win ++ [WinEvent.pushGuiMode, WinEvent.startDialogue (ext.getName actor)]
        }).dm.mTalkedTo = ext.hasTalkedToPlayer s.world actor := by
    simp [updateTopics_eq]
  exact greetingLoop_search ext search' actor _ _ _ (by rw [ht]; exact h)

theorem keywordSelected_search (ext : Ext W)
    (search' : W → Ptr → Int → Bool → Dialogue → Option DialInfo) (s : Sys W) (keyword : String)
    (hscript : ∀ code st, (ext.run code st).dm.mTalkedTo = st.dm.mTalkedTo)
    (h : ∀ w a c d, search' w a c s.dm.mTalkedTo d = ext.search w a c s.dm.mTalkedTo d) :
    keywordSelected { ext with search := search' } s keyword = keywordSelected ext s keyword := by
  have hb : keywordSelectedBody { ext with search := search' } s keyword
      = keywordSelectedBody ext s keyword := by
    unfold keywordSelectedBody
    simp only [h, parseText_search ext search' s _ h]
    rfl
  unfold keywordSelected
  rw [hb]
  exact updateTopics_search ext search' _
    (by rw [keywordSelectedBody_talkedTo ext s keyword hscript]; exact h)

theorem questionAnswered_search (ext : Ext W)
    (search' : W → Ptr → Int → Bool → Dialogue → Option DialInfo) (s : Sys W) (answer : String)
    (hscript : ∀ code st, (ext.run code st).dm.mTalkedTo = st.dm.mTalkedTo)
    (h : ∀ w a c d, search' w a c s.dm.mTalkedTo d = ext.search w a c s.dm.mTalkedTo d) :
    questionAnswered { ext with search := search' } s answer = questionAnswered ext s answer := by
  unfold questionAnswered
  cases hf : StdMap.find s.dm.mChoiceMap answer with
  | none => rfl
  | some choice =>
    simp only []
    have hb : questionAnsweredBody { ext with search := search' }
        { s with dm := { s.dm with mChoice := choice } }
        = questionAnsweredBody ext { s with dm := { s.dm with mChoice := choice } } := by
      unfold questionAnsweredBody
      simp only [h]
      have hp : ∀ text, parseText { ext with search := search' }
          { s with dm := { s.dm with mChoiceMap := [], mChoice := -1, mIsInChoice := false } } text
          = parseText ext
          { s with dm := { s.dm with mChoiceMap := [], mChoice := -1, mIsInChoice := false } } text :=
        fun text => parseText_search ext search' _ text h
      simp only [hp]
      rfl
    rw [hb]
    exact updateTopics_search ext search' _
      (by rw [questionAnsweredBody_talkedTo ext _ hscript]; exact h)

theorem step_search (ext : Ext W)
    (search' : W → Ptr → Int → Bool → Dialogue → Option DialInfo) (s : Sys W) (op : Op)
    (hscript : ∀ code st, (ext.run code st).dm.mTalkedTo = st.dm.mTalkedTo)
    (hop : ∀ a, op ≠ Op.startDialogue a)
    (h : ∀ w a c d, search' w a c s.dm.mTalkedTo d = ext.search w a c s.dm.mTalkedTo d) :
    step { ext with search := search' } s op = step ext s op := by
  cases op with
  | addTopic topic => rfl
  | parseText text => exact parseText_search ext search' s text h
  | startDialogue actor => exact absurd rfl (hop actor)
  | updateTopics => exact updateTopics_search ext search' s h
  | keywordSelected keyword => exact keywordSelected_search ext search' s keyword hscript h
  | goodbyeSelected => rfl
  | questionAnswered answer => exact questionAnswered_search ext search' s answer hscript h
  | printError error => rfl
  | askQuestion question choice => rfl
  | goodbye => rfl
  | persuade type => rfl
  | applyTemporaryDispositionChange delta => rfl

theorem steps_talkedTo (ext : Ext W) (s : Sys W) (ops : List Op)
    (hscript : ∀ code st, (ext.run code st).dm.mTalkedTo = st.dm.mTalkedTo)
    (hops : ∀ op ∈ ops, ∀ a, op ≠ Op.startDialogue a) :
    (steps ext s ops).dm.mTalkedTo = s.dm.mTalkedTo := by
  induction ops generalizing s with
  | nil => rfl
  | cons op ops ih =>
    simp only [steps]
    rw [ih _ (fun o ho => hops o (List.mem_cons_of_mem _ ho)),
      step_talkedTo ext s op hscript (hops op (List.mem_cons_self _ _))]

theorem steps_search (ext : Ext W)
    (search' : W → Ptr → Int → Bool → Dialogue → Option DialInfo) (s : Sys W) (ops : List Op)
    (hscript : ∀ code st, (ext.run code st).dm.mTalkedTo = st.dm.mTalkedTo)
    (hops : ∀ op ∈ ops, ∀ a, op ≠ Op.startDialogue a)
    (h : ∀ w a c d, search' w a c s.dm.mTalkedTo d = ext.search w a c s.dm.mTalkedTo d) :
    steps { ext with search := search' } s ops = steps ext s ops := by
  induction ops generalizing s with
  | nil => rfl
  | cons op ops ih =>
    have hop := hops op (List.mem_cons_self _ _)
    simp only [steps]
    rw [step_search ext search' s op hscript hop h]
    exact ih _ (fun o ho => hops o (List.mem_cons_of_mem _ ho))
      (by rw [step_talkedTo ext s op hscript hop]; exact h)

theorem greetingLoop_flag (ext : Ext W) (actor a : Ptr) (choice : Int) (talkedTo : Bool)
    (s : Sys W) (ds : List Dialogue)
    (hflag : ∀ code st a, ext.hasTalkedToPlayer st.world a = true →
      ext.hasTalkedToPlayer (ext.run code st).world a = true)
    (hs : ext.hasTalkedToPlayer s.world a = true) :
    ext.hasTalkedToPlayer (greetingLoop ext actor choice talkedTo s ds).world a = true := by
  induction ds with
  | nil => exact hs
  | cons d ds ih =>
    unfold greetingLoop
    by_cases hg : d.mType = DialogueType.Greeting
    · cases hf : ext.search s.world actor choice talkedTo d with
      | none => simpa [hg, hf] using ih
      | some info =>
        simp only [hg, if_true, hf]
        unfold executeScript
        split
        · exact hflag _ _ _ (by simpa [parseText, updateTopics_eq] using hs)
        · simpa [parseText, updateTopics_eq] using hs
    · simpa [hg] using ih

/-! ### Lower-casing -/

theorem toNat_ofNat_add_32 (n : Nat) (h1 : 65 ≤ n) (h2 : n ≤ 90) :
    (Char.ofNat (n + 32)).toNat = n + 32 := by
  interval_cases n <;> rfl

theorem tolower_ne_of_upper (c : Char) (h : 65 ≤ c.toNat ∧ c.toNat ≤ 90) : tolower c ≠ c := by
  intro he
  have hn := congrArg Char.toNat he
  unfold tolower at hn
  rw [if_pos h, toNat_ofNat_add_32 _ h.1 h.2] at hn
  omega

theorem tolower_tolower (c : Char) : tolower (tolower c) = tolower c := by
  by_cases h : 65 ≤ c.toNat ∧ c.toNat ≤ 90
  · have h1 : tolower c = Char.ofNat (c.toNat + 32) := by
      unfold tolower
      rw [if_pos h]
    rw [h1]
    unfold tolower
    rw [toNat_ofNat_add_32 _ h.1 h.2]
    have h2 : ¬ (65 ≤ c.toNat + 32 ∧ c.toNat + 32 ≤ 90) := by omega
    rw [if_neg h2]
  · have h1 : tolower c = c := by
      unfold tolower
      rw [if_neg h]
    rw [h1, h1]

theorem toLower_toLower (name : String) : toLower (toLower name) = toLower name := by
  unfold toLower
  simp [List.map_map, Function.comp_def, tolower_tolower]

theorem map_ne_of_mem {α : Type} (f : α → α) (l : List α) (x : α) (hx : x ∈ l)
    (hf : f x ≠ x) : l.map f ≠ l := by
  induction l with
  | nil => cases hx
  | cons a l ih =>
    intro he
    rw [List.map_cons] at he
    injection he with h1 h2
    rcases List.mem_cons.1 hx with h | h
    · exact hf (h ▸ h1)
    · exact ih h h2

/-- A string with a character in `'A'..'Z'` is not in lower-case form. -/
theorem toLower_ne_of_upper (q : String)
    (h : ∃ ch ∈ q.data, 65 ≤ ch.toNat ∧ ch.toNat ≤ 90) : toLower q ≠ q := by
  obtain ⟨ch, hm, hu⟩ := h
  intro he
  have hd : q.data.map tolower = q.data := by
    have := congrArg String.data he
    simpa [toLower] using this
  exact map_ne_of_mem tolower q.data ch hm (tolower_ne_of_upper ch hu) hd

/-! ### A pending choice whose last topic is not a Topic record of the index -/

theorem keywordSelected_stuck (ext : Ext W) (s : Sys W) (keyword : String)
    (hc : s.dm.mIsInChoice = true) :
    keywordSelected ext s keyword = updateTopics ext s := by
  have hb : keywordSelectedBody ext s keyword = s := by
    simp [keywordSelectedBody, hc]
  simp [keywordSelected, hb]

theorem questionAnswered_stuck (ext : Ext W) (s : Sys W) (answer : String)
    (hlast : ∀ d, StdMap.find s.dm.mDialogueMap s.dm.mLastTopic = some d →
      d.mType ≠ DialogueType.Topic) :
    questionAnswered ext s answer = s
    ∨ ∃ choice, questionAnswered ext s answer
        = updateTopics ext { s with dm := { s.dm with mChoice := choice } } := by
  unfold questionAnswered
  cases hf : StdMap.find s.dm.mChoiceMap answer with
  | none => exact Or.inl rfl
  | some choice =>
    refine Or.inr ⟨choice, ?_⟩
    have hb : questionAnsweredBody ext { s with dm := { s.dm with mChoice := choice } }
        = { s with dm := { s.dm with mChoice := choice } } := by
      unfold questionAnsweredBody
      cases hd : StdMap.find s.dm.mDialogueMap s.dm.mLastTopic with
      | none => simp [hd]
      | some d => simp [hd, hlast d hd]
    simp only [hb]

/-- One call of `keywordSelected` or `questionAnswered` in such a state. -/
theorem step_stuck (ext : Ext W) (s : Sys W) (op : Op)
    (hc : s.dm.mIsInChoice = true)
    (hlast : ∀ d, StdMap.find s.dm.mDialogueMap s.dm.mLastTopic = some d →
      d.mType ≠ DialogueType.Topic)
    (hop : (∃ keyword, op = Op.keywordSelected keyword)
      ∨ (∃ answer, op = Op.questionAnswered answer)) :
    (step ext s op).dm.mIsInChoice = true
    ∧ (step ext s op).dm.mChoiceMap = s.dm.mChoiceMap
    ∧ (step ext s op).dm.mLastTopic = s.dm.mLastTopic
    ∧ (step ext s op).dm.mDialogueMap = s.dm.mDialogueMap
    ∧ ∃ events, (step ext s op).win = s.win ++ events
        ∧ ∀ e ∈ events, WinEvent.isText e = false := by
  have hu : ∀ choice,
      (updateTopics ext { s with dm := { s.dm with mChoice := choice } }).dm.mIsInChoice = true
      ∧ (updateTopics ext { s with dm := { s.dm with mChoice := choice } }).dm.mChoiceMap
          = s.dm.mChoiceMap
      ∧ (updateTopics ext { s with dm := { s.dm with mChoice := choice } }).dm.mLastTopic
          = s.dm.mLastTopic
      ∧ (updateTopics ext { s with dm := { s.dm with mChoice := choice } }).dm.mDialogueMap
          = s.dm.mDialogueMap
      ∧ ∃ events, (updateTopics ext { s with dm := { s.dm with mChoice := choice } }).win
          = s.win ++ events ∧ ∀ e ∈ events, WinEvent.isText e = false := by
    intro choice
    rw [updateTopics_eq]
    refine ⟨hc, rfl, rfl, rfl, _, rfl, ?_⟩
    intro e he
    rcases List.mem_cons.1 he with h | h
    · rw [h]; rfl
    · rw [List.mem_singleton.1 h]; rfl
  rcases hop with ⟨keyword, rfl⟩ | ⟨answer, rfl⟩
  · simp only [step]
    rw [keywordSelected_stuck ext s keyword hc]
    exact hu s.dm.mChoice
  · simp only [step]
    rcases questionAnswered_stuck ext s answer hlast with h | ⟨choice, h⟩
    · rw [h]
      exact ⟨hc, rfl, rfl, rfl, [], by simp, by simp⟩
    · rw [h]
      exact hu choice

/-! ### The greeting loop when the script of the greeting has no effect -/

theorem StdMap.set_eq_self {β : Type} (m : StdMap β) (k : String) (v : β)
    (h : StdMap.find m k = some v) : StdMap.set m k v = m := by
  induction m with
  | nil => simp [StdMap.find] at h
  | cons p m ih =>
    obtain ⟨k', v'⟩ := p
    by_cases he : k' = k
    · subst he
      simp only [StdMap.find, if_true] at h
      simp only [StdMap.set, if_true]
      rw [Option.some.inj h]
    · simp only [StdMap.find, if_neg he] at h
      simp only [StdMap.set, if_neg he]
      rw [ih h]

theorem parseTextLoop_eq_self (text : String) (known : StdMap Bool) (topics : List String)
    (h : ∀ it ∈ topics, (find_str_ci text it 0).isSome = true →
      StdMap.find known it = some true) :
    parseTextLoop text known topics = known := by
  induction topics with
  | nil => rfl
  | cons it rest ih =>
    have ih' := ih (fun x hx => h x (List.mem_cons_of_mem _ hx))
    unfold parseTextLoop
    by_cases hit : (find_str_ci text it 0).isSome = true
    · rw [if_pos hit, StdMap.set_eq_self known it true (h it (List.mem_cons_self _ _) hit)]
      exact ih'
    · rw [if_neg hit]
      exact ih'

/-- The loop of `parseText` run a second time over the same list changes
nothing. -/
theorem parseTextLoop_idem (text : String) (known : StdMap Bool) (topics : List String) :
    parseTextLoop text (parseTextLoop text known topics) topics
      = parseTextLoop text known topics := by
  apply parseTextLoop_eq_self
  intro it hm hit
  rw [parseTextLoop_find, if_pos ⟨hm, hit⟩]

/-! ### The order `stringCompareNoCase` -/

theorem stringCompareNoCaseAux_total (a b : List Char) :
    stringCompareNoCaseAux b a = false ∨ stringCompareNoCaseAux a b = false := by
  induction a generalizing b with
  | nil => exact Or.inl (by cases b <;> rfl)
  | cons x xs ih =>
    cases b with
    | nil => exact Or.inr rfl
    | cons y ys =>
      simp only [stringCompareNoCaseAux]
      rcases ih ys with h | h
      · split_ifs <;> first | omega | simp [h]
      · split_ifs <;> first | omega | simp [h]

theorem stringCompareNoCaseAux_trans (a b c : List Char)
    (h1 : stringCompareNoCaseAux b a = false) (h2 : stringCompareNoCaseAux c b = false) :
    stringCompareNoCaseAux c a = false := by
  induction a generalizing b c with
  | nil => cases c <;> rfl
  | cons x xs ih =>
    cases b with
    | nil => simp [stringCompareNoCaseAux] at h1
    | cons y ys =>
      cases c with
      | nil => simp [stringCompareNoCaseAux] at h2
      | cons z zs =>
        simp only [stringCompareNoCaseAux] at h1 h2 ⊢
        by_cases hyx : (tolower y).toNat < (tolower x).toNat
        · simp [hyx] at h1
        · by_cases hzy : (tolower z).toNat < (tolower y).toNat
          · simp [hzy] at h2
          · by_cases hxy : (tolower y).toNat > (tolower x).toNat
            · have hzx1 : ¬ (tolower z).toNat < (tolower x).toNat := by omega
              have hzx2 : (tolower z).toNat > (tolower x).toNat := by omega
              simp [hzx1, hzx2]
            · by_cases hyz : (tolower z).toNat > (tolower y).toNat
              · have hzx1 : ¬ (tolower z).toNat < (tolower x).toNat := by omega
                have hzx2 : (tolower z).toNat > (tolower x).toNat := by omega
                simp [hzx1, hzx2]
              · have hzx1 : ¬ (tolower z).toNat < (tolower x).toNat := by omega
                have hzx2 : ¬ (tolower z).toNat > (tolower x).toNat := by omega
                simp only [hyx, hxy, if_false] at h1
                simp only [hzy, hyz, if_false] at h2
                simp only [hzx1, hzx2, if_false]
                exact ih ys zs h1 h2

theorem stringCompareNoCaseAux_prefix (l m : List Char) (hm : m ≠ []) :
    stringCompareNoCaseAux l (l ++ m) = true := by
  induction l with
  | nil =>
    cases m with
    | nil => exact absurd rfl hm
    | cons y ys => rfl
  | cons x xs ih =>
    simp only [List.cons_append, stringCompareNoCaseAux]
    simp [ih]

/-- The result of `sort (stringCompareNoCase)` is a permutation of the list in
which `stringCompareNoCase` never holds from a later element to an earlier
one. -/
theorem listSort_stringCompareNoCase (l : List String) :
    (listSort stringCompareNoCase l).Perm l
    ∧ (listSort stringCompareNoCase l).Pairwise
        (fun a b => stringCompareNoCase b a = false) := by
  refine ⟨List.perm_insertionSort _ l, ?_⟩
  exact @List.sorted_insertionSort String (fun a b => stringCompareNoCase b a = false) _
    ⟨fun a b => stringCompareNoCaseAux_total a.data b.data⟩
    ⟨fun a b c h1 h2 => stringCompareNoCaseAux_trans a.data b.data c.data h1 h2⟩ l

/-! ### The services of the window as a union of flags -/

theorem and_ite_zero (c : Prop) [Decidable c] (x y : Nat) :
    x &&& (if c then y else 0) = if c then x &&& y else 0 := by
  split_ifs <;> simp

/-- The value of `windowServices` is the union of the window flags whose
condition holds. -/
theorem windowServices_eq (f : ServiceFlags) (actor : Ptr) :
    windowServices f actor
      = (if actorServices actor &&& f.Weapon ≠ 0 ∨ actorServices actor &&& f.Armor ≠ 0
            ∨ actorServices actor &&& f.Clothing ≠ 0 ∨ actorServices actor &&& f.Books ≠ 0
            ∨ actorServices actor &&& f.Ingredients ≠ 0 ∨ actorServices actor &&& f.Picks ≠ 0
            ∨ actorServices actor &&& f.Probes ≠ 0 ∨ actorServices actor &&& f.Lights ≠ 0
            ∨ actorServices actor &&& f.Apparatus ≠ 0
            ∨ actorServices actor &&& f.RepairItem ≠ 0
            ∨ actorServices actor &&& f.Misc ≠ 0 then f.Service_Trade else 0)
        ||| (if actor.typeName = RefType.NPC ∧ actor.mTransport ≠ []
              then f.Service_Travel else 0)
        ||| (if actorServices actor &&& f.Spells ≠ 0 then f.Service_BuySpells else 0)
        ||| (if actorServices actor &&& f.Spellmaking ≠ 0 then f.Service_CreateSpells else 0)
        ||| (if actorServices actor &&& f.Training ≠ 0 then f.Service_Training else 0)
        ||| (if actorServices actor &&& f.Enchanting ≠ 0 then f.Service_Enchant else 0) := by
  unfold windowServices
  simp only []
  split_ifs <;> simp

theorem or_and_distrib (a b x : Nat) : (a ||| b) &&& x = (a &&& x) ||| (b &&& x) := by
  rw [Nat.and_comm, Nat.and_or_distrib_left, Nat.and_comm x a, Nat.and_comm x b]

theorem ite_and_zero (c : Prop) [Decidable c] (y x : Nat) :
    (if c then y else 0) &&& x = if c then y &&& x else 0 := by
  split_ifs <;> simp

theorem and_or_of_left (x a b : Nat) (h : x &&& a = x) : x &&& (a ||| b) = x := by
  rw [Nat.and_or_distrib_left, h]
  apply Nat.eq_of_testBit_eq
  intro i
  simp only [Nat.testBit_and, Nat.testBit_or]
  cases x.testBit i <;> simp

theorem and_or_of_right (x a b : Nat) (h : x &&& b = x) : x &&& (a ||| b) = x := by
  rw [Nat.and_or_distrib_left, h]
  apply Nat.eq_of_testBit_eq
  intro i
  simp only [Nat.testBit_and, Nat.testBit_or]
  cases x.testBit i <;> simp

theorem or_and_of_both (x y a : Nat) (hx : x &&& a = x) (hy : y &&& a = y) :
    (x ||| y) &&& a = x ||| y := by
  rw [or_and_distrib, hx, hy]

theorem ite_and_of (c : Prop) [Decidable c] (x a : Nat) (h : x &&& a = x) :
    (if c then x else 0) &&& a = if c then x else 0 := by
  split_ifs <;> simp [h]

/-- A union of six pairwise disjoint flags, each present under its own
condition: the part it has in common with each flag, and with all six. -/
theorem flag_union (c1 c2 c3 c4 c5 c6 : Prop) [Decidable c1] [Decidable c2] [Decidable c3]
    [Decidable c4] [Decidable c5] [Decidable c6] (T Tr B C Tn E w : Nat)
    (hdis : [T, Tr, B, C, Tn, E].Pairwise (fun a b => a &&& b = 0))
    (hw : w = (if c1 then T else 0) ||| (if c2 then Tr else 0) ||| (if c3 then B else 0)
      ||| (if c4 then C else 0) ||| (if c5 then Tn else 0) ||| (if c6 then E else 0)) :
    w &&& T = (if c1 then T else 0)
    ∧ w &&& Tr = (if c2 then Tr else 0)
    ∧ w &&& B = (if c3 then B else 0)
    ∧ w &&& C = (if c4 then C else 0)
    ∧ w &&& Tn = (if c5 then Tn else 0)
    ∧ w &&& E = (if c6 then E else 0)
    ∧ w &&& (T ||| Tr ||| B ||| C ||| Tn ||| E) = w := by
  simp only [List.pairwise_cons, List.mem_cons, List.mem_singleton, forall_eq_or_imp, forall_eq,
    List.not_mem_nil, IsEmpty.forall_iff, implies_true, and_true, List.Pairwise.nil] at hdis
  obtain ⟨⟨h12, h13, h14, h15, h16⟩, ⟨h23, h24, h25, h26⟩, ⟨h34, h35, h36⟩, ⟨h45, h46⟩, h56⟩ :=
    hdis
  have h21 := Nat.and_comm T Tr ▸ h12
  have h31 := Nat.and_comm T B ▸ h13
  have h41 := Nat.and_comm T C ▸ h14
  have h51 := Nat.and_comm T Tn ▸ h15
  have h61 := Nat.and_comm T E ▸ h16
  have h32 := Nat.and_comm Tr B ▸ h23
  have h42 := Nat.and_comm Tr C ▸ h24
  have h52 := Nat.and_comm Tr Tn ▸ h25
  have h62 := Nat.and_comm Tr E ▸ h26
  have h43 := Nat.and_comm B C ▸ h34
  have h53 := Nat.and_comm B Tn ▸ h35
  have h63 := Nat.and_comm B E ▸ h36
  have h54 := Nat.and_comm C Tn ▸ h45
  have h64 := Nat.and_comm C E ▸ h46
  have h65 := Nat.and_comm Tn E ▸ h56
  subst hw
  refine ⟨?_, ?_, ?_, ?_, ?_, ?_, ?_⟩
  · simp only [or_and_distrib, ite_and_zero, h21, h31, h41, h51, h61, Nat.and_self, ite_self,
      Nat.or_zero, Nat.zero_or]
  · simp only [or_and_distrib, ite_and_zero, h12, h32, h42, h52, h62, Nat.and_self, ite_self,
      Nat.or_zero, Nat.zero_or]
  · simp only [or_and_distrib, ite_and_zero, h13, h23, h43, h53, h63, Nat.and_self, ite_self,
      Nat.or_zero, Nat.zero_or]
  · simp only [or_and_distrib, ite_and_zero, h14, h24, h34, h54, h64, Nat.and_self, ite_self,
      Nat.or_zero, Nat.zero_or]
  · simp only [or_and_distrib, ite_and_zero, h15, h25, h35, h45, h65, Nat.and_self, ite_self,
      Nat.or_zero, Nat.zero_or]
  · simp only [or_and_distrib, ite_and_zero, h16, h26, h36, h46, h56, Nat.and_self, ite_self,
      Nat.or_zero, Nat.zero_or]
  · have a1 : T &&& (T ||| Tr ||| B ||| C ||| Tn ||| E) = T :=
      and_or_of_left _ _ _ (and_or_of_left _ _ _ (and_or_of_left _ _ _ (and_or_of_left _ _ _
        (and_or_of_left _ _ _ (Nat.and_self T)))))
    have a2 : Tr &&& (T ||| Tr ||| B ||| C ||| Tn ||| E) = Tr :=
      and_or_of_left _ _ _ (and_or_of_left _ _ _ (and_or_of_left _ _ _ (and_or_of_left _ _ _
        (and_or_of_right _ _ _ (Nat.and_self Tr)))))
    have a3 : B &&& (T ||| Tr ||| B ||| C ||| Tn ||| E) = B :=
      and_or_of_left _ _ _ (and_or_of_left _ _ _ (and_or_of_left _ _ _
        (and_or_of_right _ _ _ (Nat.and_self B))))
    have a4 : C &&& (T ||| Tr ||| B ||| C ||| Tn ||| E) = C :=
      and_or_of_left _ _ _ (and_or_of_left _ _ _ (and_or_of_right _ _ _ (Nat.and_self C)))
    have a5 : Tn &&& (T ||| Tr ||| B ||| C ||| Tn ||| E) = Tn :=
      and_or_of_left _ _ _ (and_or_of_right _ _ _ (Nat.and_self Tn))
    have a6 : E &&& (T ||| Tr ||| B ||| C ||| Tn ||| E) = E :=
      and_or_of_right _ _ _ (Nat.and_self E)
    exact or_and_of_both _ _ _ (or_and_of_both _ _ _ (or_and_of_both _ _ _
      (or_and_of_both _ _ _ (or_and_of_both _ _ _ (ite_and_of c1 _ _ a1) (ite_and_of c2 _ _ a2))
        (ite_and_of c3 _ _ a3)) (ite_and_of c4 _ _ a4)) (ite_and_of c5 _ _ a5))
      (ite_and_of c6 _ _ a6)

theorem ite_ne_zero_iff (c : Prop) [Decidable c] (x : Nat) (hx : x ≠ 0) :
    (if c then x else 0) ≠ 0 ↔ c := by
  split_ifs with h <;> simp [h, hx]

/-! ### Keys stay in lower-case form -/

theorem StdMap.mem_keys_set {β : Type} (m : StdMap β) (k : String) (v : β) (x : String)
    (hx : x ∈ StdMap.keys (StdMap.set m k v)) : x = k ∨ x ∈ StdMap.keys m := by
  induction m with
  | nil =>
    simp [StdMap.set, StdMap.keys] at hx
    exact Or.inl hx
  | cons p m ih =>
    obtain ⟨k', v'⟩ := p
    by_cases he : k' = k
    · simp only [StdMap.set, if_pos he, StdMap.keys, List.map_cons, List.mem_cons] at hx ⊢
      rcases hx with h | h
      · exact Or.inl h
      · exact Or.inr (Or.inr h)
    · simp only [StdMap.set, if_neg he, StdMap.keys, List.map_cons, List.mem_cons] at hx ⊢
      rcases hx with h | h
      · exact Or.inr (Or.inl h)
      · rcases ih h with h' | h'
        · exact Or.inl h'
        · exact Or.inr (Or.inr h')

theorem parseTextLoop_mem_keys (text : String) (known : StdMap Bool) (topics : List String)
    (x : String) (hx : x ∈ StdMap.keys (parseTextLoop text known topics)) :
    x ∈ StdMap.keys known ∨ x ∈ topics := by
  induction topics generalizing known with
  | nil => exact Or.inl hx
  | cons it rest ih =>
    unfold parseTextLoop at hx
    by_cases hit : (find_str_ci text it 0).isSome = true
    · rw [if_pos hit] at hx
      rcases ih _ hx with h | h
      · rcases StdMap.mem_keys_set _ _ _ _ h with h' | h'
        · exact Or.inr (h' ▸ List.mem_cons_self _ _)
        · exact Or.inl h'
      · exact Or.inr (List.mem_cons_of_mem _ h)
    · rw [if_neg hit] at hx
      rcases ih _ hx with h | h
      · exact Or.inl h
      · exact Or.inr (List.mem_cons_of_mem _ h)

theorem create_mem_keys (ds : List Dialogue) (m : StdMap Dialogue) (x : String)
    (hx : x ∈ StdMap.keys (ds.foldl (fun m it => StdMap.set m (toLower it.mId) it) m)) :
    x ∈ StdMap.keys m ∨ ∃ d ∈ ds, x = toLower d.mId := by
  induction ds generalizing m with
  | nil => exact Or.inl hx
  | cons d ds ih =>
    rw [List.foldl_cons] at hx
    rcases ih _ hx with h | ⟨d', hd', h⟩
    · rcases StdMap.mem_keys_set _ _ _ _ h with h' | h'
      · exact Or.inr ⟨d, List.mem_cons_self _ _, h'⟩
      · exact Or.inl h'
    · exact Or.inr ⟨d', List.mem_cons_of_mem _ hd', h⟩

theorem lowerCaseKeys_create (dialogs : List Dialogue) (actor : Ptr) (talkedTo : Bool) :
    LowerCaseKeys (DialogueManager.create dialogs actor talkedTo) := by
  refine ⟨?_, ?_, ?_, ?_⟩
  · intro k hk
    simp [DialogueManager.create, StdMap.keys] at hk
  · intro k hk
    simp [DialogueManager.create, StdMap.keys] at hk
  · intro k hk
    rcases create_mem_keys dialogs [] k hk with h | ⟨d, _, h⟩
    · simp [StdMap.keys] at h
    · rw [h, toLower_toLower]
  · intro k hk
    simp [DialogueManager.create] at hk

theorem lowerCaseKeys_updateTopics (ext : Ext W) (s : Sys W) (h : LowerCaseKeys s.dm) :
    LowerCaseKeys (updateTopics ext s).dm := by
  obtain ⟨h1, h2, h3, _⟩ := h
  rw [updateTopics_eq]
  refine ⟨h1, h2, h3, ?_⟩
  intro k hk
  simp only [List.mem_map] at hk
  obtain ⟨d, _, rfl⟩ := hk
  exact toLower_toLower _

theorem lowerCaseKeys_parseText (ext : Ext W) (s : Sys W) (text : String)
    (h : LowerCaseKeys s.dm) : LowerCaseKeys (parseText ext s text).dm := by
  unfold parseText
  apply lowerCaseKeys_updateTopics
  obtain ⟨h1, h2, h3, h4⟩ := h
  refine ⟨?_, h2, h3, h4⟩
  intro k hk
  rcases parseTextLoop_mem_keys _ _ _ _ hk with h | h
  · exact h1 k h
  · exact h4 k h

theorem lowerCaseKeys_executeScript (ext : Ext W) (s : Sys W) (script : String)
    (hscript : ∀ code st, LowerCaseKeys st.dm → LowerCaseKeys (ext.run code st).dm)
    (h : LowerCaseKeys s.dm) : LowerCaseKeys (executeScript ext s script).dm := by
  unfold executeScript
  cases ext.compile s.world s.dm.mActor script with
  | none => exact h
  | some code => exact hscript code s h

theorem lowerCaseKeys_greetingLoop (ext : Ext W) (actor : Ptr) (choice : Int) (talkedTo : Bool)
    (s : Sys W) (ds : List Dialogue)
    (hscript : ∀ code st, LowerCaseKeys st.dm → LowerCaseKeys (ext.run code st).dm)
    (h : LowerCaseKeys s.dm) :
    LowerCaseKeys (greetingLoop ext actor choice talkedTo s ds).dm := by
  induction ds with
  | nil => exact h
  | cons d ds ih =>
    unfold greetingLoop
    by_cases hg : d.mType = DialogueType.Greeting
    · cases hf : ext.search s.world actor choice talkedTo d with
      | none => simpa [hg, hf] using ih
      | some info =>
        simp only [hg, if_true, hf]
        exact lowerCaseKeys_executeScript ext _ _ hscript
          (lowerCaseKeys_parseText ext s info.mResponse h)
    · simpa [hg] using ih

theorem lowerCaseKeys_keywordSelectedBody (ext : Ext W) (s : Sys W) (keyword : String)
    (hscript : ∀ code st, LowerCaseKeys st.dm → LowerCaseKeys (ext.run code st).dm)
    (h : LowerCaseKeys s.dm) : LowerCaseKeys (keywordSelectedBody ext s keyword).dm := by
  unfold keywordSelectedBody
  split_ifs with h1
  · split
    · split_ifs with h2
      · split
        · exact lowerCaseKeys_executeScript ext _ _ hscript
            (lowerCaseKeys_parseText ext s _ h)
        · exact h
      · exact h
    · exact h
  · exact h

theorem lowerCaseKeys_questionAnsweredBody (ext : Ext W) (s : Sys W)
    (hscript : ∀ code st, LowerCaseKeys st.dm → LowerCaseKeys (ext.run code st).dm)
    (h : LowerCaseKeys s.dm) : LowerCaseKeys (questionAnsweredBody ext s).dm := by
  unfold questionAnsweredBody
  split
  · split_ifs with h2
    · split
      · refine lowerCaseKeys_executeScript ext _ _ hscript
          (lowerCaseKeys_parseText ext _ _ ?_)
        obtain ⟨h1, _, h3, h4⟩ := h
        exact ⟨h1, by simp [StdMap.keys], h3, h4⟩
      · exact h
    · exact h
  · exact h

theorem lowerCaseKeys_askQuestion (s : Sys W) (question : String) (choice : Int)
    (h : LowerCaseKeys s.dm) : LowerCaseKeys (askQuestion s question choice).dm := by
  obtain ⟨h1, h2, h3, h4⟩ := h
  refine ⟨h1, ?_, h3, h4⟩
  intro k hk
  rcases StdMap.mem_keys_set _ _ _ _ hk with h' | h'
  · rw [h', toLower_toLower]
  · exact h2 k h'

/-- Every call keeps the keys in lower-case form, provided that scripts do. -/
theorem lowerCaseKeys_step (ext : Ext W) (s : Sys W) (op : Op)
    (hscript : ∀ code st, LowerCaseKeys st.dm → LowerCaseKeys (ext.run code st).dm)
    (h : LowerCaseKeys s.dm) : LowerCaseKeys (step ext s op).dm := by
  cases op with
  | addTopic topic =>
    obtain ⟨h1, h2, h3, h4⟩ := h
    refine ⟨?_, h2, h3, h4⟩
    intro k hk
    rcases StdMap.mem_keys_set _ _ _ _ hk with h' | h'
    · rw [h', toLower_toLower]
    · exact h1 k h'
  | parseText text => exact lowerCaseKeys_parseText ext s text h
  | startDialogue actor =>
    simp only [step, startDialogue]
    apply lowerCaseKeys_greetingLoop ext _ _ _ _ _ hscript
    apply lowerCaseKeys_updateTopics
    obtain ⟨h1, h2, h3, _⟩ := h
    exact ⟨h1, h2, h3, by simp⟩
  | updateTopics => exact lowerCaseKeys_updateTopics ext s h
  | keywordSelected keyword =>
    exact lowerCaseKeys_updateTopics ext _
      (lowerCaseKeys_keywordSelectedBody ext s keyword hscript h)
  | goodbyeSelected => exact h
  | questionAnswered answer =>
    simp only [step, questionAnswered]
    split
    · exact lowerCaseKeys_updateTopics ext _
        (lowerCaseKeys_questionAnsweredBody ext _ hscript h)
    · exact h
  | printError error => exact h
  | askQuestion question choice => exact lowerCaseKeys_askQuestion s question choice h
  | goodbye => exact h
  | persuade type => exact h
  | applyTemporaryDispositionChange delta => exact h

theorem lowerCaseKeys_steps (ext : Ext W) (s : Sys W) (ops : List Op)
    (hscript : ∀ code st, LowerCaseKeys st.dm → LowerCaseKeys (ext.run code st).dm)
    (h : LowerCaseKeys s.dm) : LowerCaseKeys (steps ext s ops).dm := by
  induction ops generalizing s with
  | nil => exact h
  | cons op ops ih => exact ih _ (lowerCaseKeys_step ext s op hscript h)

end Lemmas

/-! ## Selecting a keyword while a choice is pending -/

section Claims

variable {W : Type}

/-- C1: when a forced choice is pending (`mIsInChoice` is true),
`keywordSelected (keyword)` sends neither a title nor a text to the window and
leaves `mChoiceMap`, `mChoice`, `mKnownTopics`, `mLastTopic` and
`mLastDialogue` unchanged; the state after the call is the state before it
with `mActorKnownTopics` recomputed and with the service set and the keyword
list sent to the window. -/
theorem keywordSelected_in_choice (ext : Ext W) (s : Sys W) (keyword : String)
    (h : s.dm.mIsInChoice = true) :
    (∃ services keyWords,
        (keywordSelected ext s keyword).win
          = s.win ++ [WinEvent.setServices services, WinEvent.setKeywords keyWords])
    ∧ (keywordSelected ext s keyword).dm.mChoiceMap = s.dm.mChoiceMap
    ∧ (keywordSelected ext s keyword).dm.mChoice = s.dm.mChoice
    ∧ (keywordSelected ext s keyword).dm.mKnownTopics = s.dm.mKnownTopics
    ∧ (keywordSelected ext s keyword).dm.mLastTopic = s.dm.mLastTopic
    ∧ (keywordSelected ext s keyword).dm.mLastDialogue = s.dm.mLastDialogue
    ∧ keywordSelected ext s keyword =
        { dm := { s.dm with
            mActorKnownTopics :=
              (ext.dialogs.filter (fun d => decide (d.mType = DialogueType.Topic)
                && (ext.search s.world s.dm.mActor (-1) s.dm.mTalkedTo d).isSome)).map
                (fun d => toLower d.mId) }
          world := s.world
          win := s.win ++ [WinEvent.setServices (windowServices ext.flags s.dm.mActor),
            WinEvent.setKeywords (listSort stringCompareNoCase
              ((ext.dialogs.filter (fun d => decide (d.mType = DialogueType.Topic)
                && (ext.search s.world s.dm.mActor (-1) s.dm.mTalkedTo d).isSome
                && (StdMap.find s.dm.mKnownTopics (toLower d.mId)).isSome)).map
                (fun d => d.mId)))] } := by
  have hb : keywordSelectedBody ext s keyword = s := by
    simp [keywordSelectedBody, h]
  have hk : keywordSelected ext s keyword = updateTopics ext s := by
    simp [keywordSelected, hb]
  rw [hk, updateTopics_eq]
  exact ⟨⟨_, _, rfl⟩, rfl, rfl, rfl, rfl, rfl, rfl⟩

/-- In the sample state with a pending choice, selecting the keyword
`"background"` (a topic the actor would answer) only sends the services and the
keyword list, and the two pending answers stay in `mChoiceMap`. -/
theorem keywordSelected_in_choice_witness :
    demoGreeted.dm.mIsInChoice = true
    ∧ (keywordSelected demoExt demoGreeted "background").dm.mChoiceMap = [("yes", 1), ("no", 2)]
    ∧ (keywordSelected demoExt demoGreeted "background").dm.mLastTopic = "Greeting 0"
    ∧ (keywordSelected demoExt demoGreeted "background").win.drop demoGreeted.win.length
        = [WinEvent.setServices 1, WinEvent.setKeywords ["Mages Guild"]] := by
  have h := keywordSelected_in_choice demoExt demoGreeted "background" (by decide)
  refine ⟨by decide, ?_, ?_, ?_⟩
  · rw [h.2.1]; decide
  · rw [h.2.2.2.2.1]; decide
  · rw [h.2.2.2.2.2.2]; decide

/-! ## Answering a question -/

/-- C2: when `answer` is not a key of `mChoiceMap`, `questionAnswered (answer)`
returns the state unchanged: all members of the manager, the state of the
collaborators and the list of calls made to the window are the same, so nothing
is sent to the window. -/
theorem questionAnswered_unknown_answer (ext : Ext W) (s : Sys W) (answer : String)
    (h : answer ∉ StdMap.keys s.dm.mChoiceMap) :
    questionAnswered ext s answer = s := by
  have hf : StdMap.find s.dm.mChoiceMap answer = none :=
    (StdMap.find_eq_none_iff _ _).2 h
  simp [questionAnswered, hf]

/-- In the sample state with the pending answers `"yes"` and `"no"`, the answer
`"Yes"` (as displayed, with a capital) is not a key and is ignored. -/
theorem questionAnswered_unknown_answer_witness :
    "Yes" ∉ StdMap.keys demoGreeted.dm.mChoiceMap
    ∧ questionAnswered demoExt demoGreeted "Yes" = demoGreeted :=
  ⟨by decide, questionAnswered_unknown_answer demoExt demoGreeted "Yes" (by decide)⟩

/-- C3, as stated, fails: in the sample state after a greeting that asked a
question, the last topic `"Greeting 0"` is not a key of the dialogue index, and
after `questionAnswered ("yes")` with the pending answer `"yes"` the choice is
still pending and `mChoiceMap` still holds both answers. -/
theorem questionAnswered_choice_kept_counterexample :
    "yes" ∈ StdMap.keys demoGreeted.dm.mChoiceMap
    ∧ StdMap.find demoGreeted.dm.mDialogueMap demoGreeted.dm.mLastTopic = none
    ∧ (questionAnswered demoExt demoGreeted "yes").dm.mIsInChoice = true
    ∧ (questionAnswered demoExt demoGreeted "yes").dm.mChoiceMap = [("yes", 1), ("no", 2)]
    ∧ ¬ ((questionAnswered demoExt demoGreeted "yes").dm.mIsInChoice = false
          ∧ (questionAnswered demoExt demoGreeted "yes").dm.mChoiceMap = []) := by
  decide

/-- C3, amended: let `answer` be a key of `mChoiceMap` with code `choice`.
If `mLastTopic` is a key of the dialogue index whose record is a Topic and the
filter built with `choice` finds an info for it, then `questionAnswered`
clears `mIsInChoice` and `mChoiceMap` before it runs the script of that info:
afterwards the two members are what the script leaves when it is started in a
state where they are false and empty, hence false and empty when the script
does not write them.  If `mLastTopic` is not a key of the index, or its record
is not a Topic, or the filter finds nothing, the two members are left as they
were. -/
theorem questionAnswered_choice_cleared (ext : Ext W) (s : Sys W) (answer : String)
    (choice : Int) (h : StdMap.find s.dm.mChoiceMap answer = some choice) :
    (∀ dialogue info,
        StdMap.find s.dm.mDialogueMap s.dm.mLastTopic = some dialogue →
        dialogue.mType = DialogueType.Topic →
        ext.search s.world s.dm.mActor choice s.dm.mTalkedTo dialogue = some info →
        (∃ s3 : Sys W, s3.dm.mIsInChoice = false ∧ s3.dm.mChoiceMap = []
          ∧ (questionAnswered ext s answer).dm.mIsInChoice
              = (executeScript ext s3 info.mResultScript).dm.mIsInChoice
          ∧ (questionAnswered ext s answer).dm.mChoiceMap
              = (executeScript ext s3 info.mResultScript).dm.mChoiceMap)
        ∧ ((∀ st : Sys W,
              (executeScript ext st info.mResultScript).dm.mIsInChoice = st.dm.mIsInChoice
              ∧ (executeScript ext st info.mResultScript).dm.mChoiceMap = st.dm.mChoiceMap) →
            (questionAnswered ext s answer).dm.mIsInChoice = false
            ∧ (questionAnswered ext s answer).dm.mChoiceMap = []))
    ∧ ((∀ dialogue,
          StdMap.find s.dm.mDialogueMap s.dm.mLastTopic = some dialogue →
          dialogue.mType = DialogueType.Topic →
          ext.search s.world s.dm.mActor choice s.dm.mTalkedTo dialogue = none) →
        (questionAnswered ext s answer).dm.mIsInChoice = s.dm.mIsInChoice
        ∧ (questionAnswered ext s answer).dm.mChoiceMap = s.dm.mChoiceMap) := by
  constructor
  · intro dialogue info hd ht hs
    have hex : ∃ s3 : Sys W, s3.dm.mIsInChoice = false ∧ s3.dm.mChoiceMap = []
        ∧ (questionAnswered ext s answer).dm.mIsInChoice
            = (executeScript ext s3 info.mResultScript).dm.mIsInChoice
        ∧ (questionAnswered ext s answer).dm.mChoiceMap
            = (executeScript ext s3 info.mResultScript).dm.mChoiceMap := by
      refine ⟨{ parseText ext
          { s with dm := { s.dm with mChoiceMap := [], mChoice := -1, mIsInChoice := false } }
          info.mResponse with
        win := (parseText ext
          { s with dm := { s.dm with mChoiceMap := [], mChoice := -1, mIsInChoice := false } }
          info.mResponse).win ++ [WinEvent.addText info.mResponse] }, ?_, ?_, ?_, ?_⟩
      · simp [parseText, updateTopics_eq]
      · simp [parseText, updateTopics_eq]
      · simp [questionAnswered, h, questionAnsweredBody, hd, ht, hs, updateTopics_eq]
      · simp [questionAnswered, h, questionAnsweredBody, hd, ht, hs, updateTopics_eq]
    refine ⟨hex, fun hkeep => ?_⟩
    obtain ⟨s3, h1, h2, h3, h4⟩ := hex
    rw [h3, h4, (hkeep s3).1, (hkeep s3).2]
    exact ⟨h1, h2⟩
  · intro hno
    cases hd : StdMap.find s.dm.mDialogueMap s.dm.mLastTopic with
    | none => simp [questionAnswered, h, questionAnsweredBody, hd, updateTopics_eq]
    | some dialogue =>
      by_cases ht : dialogue.mType = DialogueType.Topic
      · have hs := hno dialogue hd ht
        simp [questionAnswered, h, questionAnsweredBody, hd, ht, hs, updateTopics_eq]
      · simp [questionAnswered, h, questionAnsweredBody, hd, ht, updateTopics_eq]

/-- In the sample state where the topic `"mages guild"` has asked its question,
the answer `"yes"` has code 1, the filter finds the info for choice 1, whose
script does not ask anything, and afterwards no choice is pending and
`mChoiceMap` is empty. -/
theorem questionAnswered_choice_cleared_witness :
    StdMap.find demoAsked.dm.mChoiceMap "yes" = some 1
    ∧ (questionAnswered demoExt demoAsked "yes").dm.mIsInChoice = false
    ∧ (questionAnswered demoExt demoAsked "yes").dm.mChoiceMap = [] := by
  have h := (questionAnswered_choice_cleared demoExt demoAsked "yes" 1 (by decide)).1
    ⟨"Mages Guild", DialogueType.Topic,
      [⟨"choice 1", "Then welcome to the guild.", "journal", ""⟩,
       ⟨"choice 2", "A pity.", "", ""⟩,
       ⟨"always", "Do you want to join the guild?", "choice", ""⟩]⟩
    ⟨"choice 1", "Then welcome to the guild.", "journal", ""⟩
    (by decide) (by decide) (by decide)
  have hkeep : ∀ st : Sys DemoWorld,
      (executeScript demoExt st "journal").dm.mIsInChoice = st.dm.mIsInChoice
      ∧ (executeScript demoExt st "journal").dm.mChoiceMap = st.dm.mChoiceMap := by
    intro st
    simp [executeScript, demoExt, demoCompile, demoRun]
  exact ⟨by decide, h.2 hkeep⟩

/-! ## Persuasion -/

/-- C4, as stated, fails: the sums are `float` sums.  In the sample state with
a derived disposition of 100 and a prior temporary change of 0, a persuasion
that returns a temporary change of `2 ^ -20` leaves `t = 2 ^ -20`: the `float`
sum `100 + 2 ^ -20` is 100, so that neither test of lines 442-446 fires.  The
unclamped sum `100 + (0 + 2 ^ -20)` exceeds 100, yet `t` is not
`100 - curDisp = 0`, and `curDisp + t` exceeds 100. -/
theorem persuade_clamp_counterexample :
    demoTinyExt.getPersuasionDispositionChange demoFull.world demoFull.dm.mActor 0
        demoFull.dm.mTemporaryDispositionChange
      = ((true, Float32.finite (1 / 2 ^ 20), Float32.finite 0), demoFull.world)
    ∧ demoTinyExt.getDerivedDisposition demoFull.world demoFull.dm.mActor = 100
    ∧ demoFull.dm.mTemporaryDispositionChange = Float32.finite 0
    ∧ (persuade demoTinyExt demoFull 0).dm.mTemporaryDispositionChange
        = Float32.finite (1 / 2 ^ 20)
    ∧ (100 : ℚ) + (0 + 1 / 2 ^ 20) > 100
    ∧ Float32.finite (1 / 2 ^ 20) ≠ Float32.finite (((100 - 100 : Int) : Int) : ℚ)
    ∧ ¬ ((100 : ℚ) + 1 / 2 ^ 20 ≤ 100) := by
  decide!

/-- C4, amended: let the mechanics manager return the temporary change `temp`,
let `curDisp`, of magnitude at most `2 ^ 23`, be the derived disposition it
reports, and let the `float` sum `acc` of the prior value of
`mTemporaryDispositionChange` and of `temp` not be a NaN.  After `persuade`
the member (`t` below) is such that the `float` sum `curDisp + t` is a finite
value between 0 and 100; `t` is `100 - curDisp` when the `float` sum
`curDisp + acc` exceeds 100, `-curDisp` when that sum is negative, and `acc`
otherwise. -/
theorem persuade_clamp (ext : Ext W) (s : Sys W) (type : Int)
    (success : Bool) (temp perm : Float32) (w : W) (curDisp : Int)
    (hr : ext.getPersuasionDispositionChange s.world s.dm.mActor type
        s.dm.mTemporaryDispositionChange = ((success, temp, perm), w))
    (hc : ext.getDerivedDisposition w s.dm.mActor = curDisp)
    (hrange : |curDisp| ≤ 2 ^ 23)
    (hnan : Float32.add s.dm.mTemporaryDispositionChange temp ≠ Float32.nan) :
    (∃ q : ℚ,
        Float32.add (Float32.ofInt curDisp) (persuade ext s type).dm.mTemporaryDispositionChange
          = Float32.finite q
        ∧ 0 ≤ q ∧ q ≤ 100)
    ∧ (Float32.lt (Float32.finite 100)
          (Float32.add (Float32.ofInt curDisp)
            (Float32.add s.dm.mTemporaryDispositionChange temp)) = true →
        (persuade ext s type).dm.mTemporaryDispositionChange
          = Float32.finite ((100 - curDisp : Int) : ℚ))
    ∧ (Float32.lt
          (Float32.add (Float32.ofInt curDisp)
            (Float32.add s.dm.mTemporaryDispositionChange temp))
          (Float32.finite 0) = true →
        (persuade ext s type).dm.mTemporaryDispositionChange
          = Float32.finite ((-curDisp : Int) : ℚ))
    ∧ (Float32.lt
          (Float32.add (Float32.ofInt curDisp)
            (Float32.add s.dm.mTemporaryDispositionChange temp))
          (Float32.finite 0) = false →
        Float32.lt (Float32.finite 100)
          (Float32.add (Float32.ofInt curDisp)
            (Float32.add s.dm.mTemporaryDispositionChange temp)) = false →
        (persuade ext s type).dm.mTemporaryDispositionChange
          = Float32.add s.dm.mTemporaryDispositionChange temp) := by
  have ht : (persuade ext s type).dm.mTemporaryDispositionChange
      = clampTemporary curDisp (Float32.add s.dm.mTemporaryDispositionChange temp) := by
    simp [persuade, hr, hc]
  have hb := abs_le.1 hrange
  have e1 : Float32.ofInt curDisp = Float32.finite (curDisp : ℚ) :=
    ofInt_exact curDisp (by rw [abs_le]; constructor <;> omega)
  have e2 : Float32.ofInt (-curDisp) = Float32.finite ((-curDisp : Int) : ℚ) :=
    ofInt_exact (-curDisp) (by rw [abs_le]; constructor <;> omega)
  have e3 : Float32.ofInt (100 - curDisp) = Float32.finite ((100 - curDisp : Int) : ℚ) :=
    ofInt_exact (100 - curDisp) (by rw [abs_le]; constructor <;> omega)
  rw [ht]
  generalize Float32.add s.dm.mTemporaryDispositionChange temp = acc at hnan ⊢
  have hS := add_finite_ne_nan (curDisp : ℚ) acc hnan
  unfold clampTemporary
  rw [ofInt_zero, ofInt_hundred, e1, e2, e3]
  generalize hSd : Float32.add (Float32.finite (curDisp : ℚ)) acc = S at hS ⊢
  have hlow : Float32.add (Float32.finite (curDisp : ℚ)) (Float32.finite ((-curDisp : Int) : ℚ))
      = Float32.finite 0 := by
    show round32 _ = _
    have : (curDisp : ℚ) + ((-curDisp : Int) : ℚ) = 0 := by push_cast; ring
    rw [this]
    exact ofInt_zero
  have hhigh : Float32.add (Float32.finite (curDisp : ℚ))
      (Float32.finite ((100 - curDisp : Int) : ℚ)) = Float32.finite 100 := by
    show round32 _ = _
    have : (curDisp : ℚ) + ((100 - curDisp : Int) : ℚ) = ((100 : Int) : ℚ) := by
      push_cast; ring
    rw [this]
    exact ofInt_hundred
  cases S with
  | nan => exact absurd rfl hS
  | inf negative =>
    cases negative with
    | true =>
      simp only [Float32.lt, if_true]
      exact ⟨⟨0, hlow, le_refl _, by norm_num⟩, by simp, by simp, by simp⟩
    | false =>
      simp only [Float32.lt, Bool.not_false, if_true, Bool.false_eq_true, if_false]
      exact ⟨⟨100, hhigh, by norm_num, le_refl _⟩, by simp, by simp, by simp⟩
  | finite q =>
    simp only [Float32.lt, decide_eq_true_eq, decide_eq_false_iff_not]
    by_cases h1 : q < 0
    · rw [if_pos h1]
      refine ⟨⟨0, hlow, le_refl _, by norm_num⟩, ?_, ?_, ?_⟩
      · intro h; linarith
      · intro _; rfl
      · intro h; exact absurd h1 h
    · rw [if_neg h1]
      by_cases h2 : (100 : ℚ) < q
      · rw [if_pos h2]
        refine ⟨⟨100, hhigh, by norm_num, le_refl _⟩, ?_, ?_, ?_⟩
        · intro _; rfl
        · intro h; exact absurd h h1
        · intro _ h; exact absurd h2 h
      · rw [if_neg h2]
        refine ⟨⟨q, hSd, not_lt.1 h1, not_lt.1 h2⟩, ?_, ?_, ?_⟩
        · intro h; exact absurd h h2
        · intro h; exact absurd h h1
        · intro _ _; rfl

/-- In the sample state the derived disposition is 95 and the prior temporary
change is 0; a persuasion with a raw temporary change of 20 leaves a temporary
change of 5, so that the displayed disposition is 100 and not 115. -/
theorem persuade_clamp_witness :
    demoExt.getPersuasionDispositionChange demoInit.world demoInit.dm.mActor 0
        demoInit.dm.mTemporaryDispositionChange
      = ((true, Float32.finite 20, Float32.finite 5), demoInit.world)
    ∧ demoExt.getDerivedDisposition demoInit.world demoInit.dm.mActor = 95
    ∧ demoInit.dm.mTemporaryDispositionChange = Float32.finite 0
    ∧ (persuade demoExt demoInit 0).dm.mTemporaryDispositionChange = Float32.finite 5
    ∧ Float32.add (Float32.ofInt 95) (persuade demoExt demoInit 0).dm.mTemporaryDispositionChange
        = Float32.finite 100 := by
  have h := persuade_clamp demoExt demoInit 0 true (Float32.finite 20) (Float32.finite 5)
    demoInit.world 95 rfl rfl (by norm_num) (by decide!)
  have h5 : (persuade demoExt demoInit 0).dm.mTemporaryDispositionChange
      = Float32.finite 5 := by
    rw [h.2.1 (by decide!)]
    norm_num
  refine ⟨rfl, rfl, rfl, h5, ?_⟩
  rw [h5]
  decide!

/-- C6: after `parseText (text)` a topic is marked known (`mKnownTopics` maps
it to true) if and only if it was marked known before the call, or it is an
element of `mActorKnownTopics` at the time of the call whose lower-cased
characters occur as a contiguous part of the lower-cased text; the same holds
for being a key of `mKnownTopics`.  In particular no topic is un-marked. -/
theorem parseText_known (ext : Ext W) (s : Sys W) (text topic : String) :
    (StdMap.find (parseText ext s text).dm.mKnownTopics topic = some true
      ↔ StdMap.find s.dm.mKnownTopics topic = some true
        ∨ (topic ∈ s.dm.mActorKnownTopics
            ∧ (toLower topic).data <:+: (toLower text).data))
    ∧ (topic ∈ StdMap.keys (parseText ext s text).dm.mKnownTopics
      ↔ topic ∈ StdMap.keys s.dm.mKnownTopics
        ∨ (topic ∈ s.dm.mActorKnownTopics
            ∧ (toLower topic).data <:+: (toLower text).data))
    ∧ (StdMap.find s.dm.mKnownTopics topic = some true →
        StdMap.find (parseText ext s text).dm.mKnownTopics topic = some true) := by
  have hk : (parseText ext s text).dm.mKnownTopics
      = parseTextLoop text s.dm.mKnownTopics s.dm.mActorKnownTopics := by
    simp [parseText, updateTopics_eq]
  have hf := parseTextLoop_find text s.dm.mKnownTopics s.dm.mActorKnownTopics topic
  have hi := find_str_ci_isSome text topic
  by_cases hc : topic ∈ s.dm.mActorKnownTopics ∧ (find_str_ci text topic 0).isSome = true
  · have hc' : topic ∈ s.dm.mActorKnownTopics
        ∧ (toLower topic).data <:+: (toLower text).data := ⟨hc.1, hi.1 hc.2⟩
    rw [if_pos hc] at hf
    refine ⟨?_, ?_, ?_⟩
    · rw [hk, hf]
      exact ⟨fun _ => Or.inr hc', fun _ => rfl⟩
    · rw [← StdMap.find_isSome_iff, hk, hf]
      exact ⟨fun _ => Or.inr hc', fun _ => rfl⟩
    · intro _
      rw [hk, hf]
  · have hc' : ¬ (topic ∈ s.dm.mActorKnownTopics
        ∧ (toLower topic).data <:+: (toLower text).data) := fun h => hc ⟨h.1, hi.2 h.2⟩
    rw [if_neg hc] at hf
    refine ⟨?_, ?_, ?_⟩
    · rw [hk, hf]
      exact ⟨fun h => Or.inl h, fun h => h.resolve_right hc'⟩
    · rw [← StdMap.find_isSome_iff, ← StdMap.find_isSome_iff, hk, hf]
      exact ⟨fun h => Or.inl h, fun h => h.resolve_right hc'⟩
    · intro h
      rw [hk, hf]
      exact h

/-- In the sample state where the actor would talk about `"mages guild"` and
the player knows no topic, the text `"Try visiting the Mages Guild"` marks
`"mages guild"` known and does not mark `"background"`. -/
theorem parseText_known_witness :
    "mages guild" ∈ demoTopics.dm.mActorKnownTopics
    ∧ StdMap.find demoTopics.dm.mKnownTopics "mages guild" = none
    ∧ StdMap.find (parseText demoExt demoTopics "Try visiting the Mages Guild").dm.mKnownTopics
        "mages guild" = some true
    ∧ StdMap.find (parseText demoExt demoTopics "Try visiting the Mages Guild").dm.mKnownTopics
        "background" = none := by
  refine ⟨by decide, by decide, ?_, by decide⟩
  exact (parseText_known demoExt demoTopics "Try visiting the Mages Guild" "mages guild").1.2
    (Or.inr ⟨by decide, "try visiting the ".data, [], by decide⟩)

/-! ## Starting a dialogue -/

/-- C7, as stated, fails.  Over the second sample store, whose Topic records
`"Rumors"` and `"rumors"` both resolve, `startDialogue` leaves the list
`["rumors", "rumors"]`, which has a duplicate; and the script of the greeting
writes the journal, so that after the call the filter
`Filter (mActor, mChoice, mTalkedTo)` finds an info for the Topic record
`"Secret"`, whose lower-cased id is not in the list. -/
theorem startDialogue_actorKnownTopics_counterexample :
    (startDialogue demoRumorExt demoRumorInit demoActor).dm.mActorKnownTopics
      = ["rumors", "rumors"]
    ∧ ¬ (startDialogue demoRumorExt demoRumorInit demoActor).dm.mActorKnownTopics.Nodup
    ∧ (⟨"Secret", DialogueType.Topic,
          [⟨"journal", "Now that you are a member: the password is xyzzy.", "", ""⟩]⟩ : Dialogue)
        ∈ demoRumorExt.dialogs
    ∧ (demoRumorExt.search (startDialogue demoRumorExt demoRumorInit demoActor).world
          (startDialogue demoRumorExt demoRumorInit demoActor).dm.mActor
          (startDialogue demoRumorExt demoRumorInit demoActor).dm.mChoice
          (startDialogue demoRumorExt demoRumorInit demoActor).dm.mTalkedTo
          ⟨"Secret", DialogueType.Topic,
            [⟨"journal", "Now that you are a member: the password is xyzzy.", "", ""⟩]⟩).isSome
        = true
    ∧ toLower "Secret"
        ∉ (startDialogue demoRumorExt demoRumorInit demoActor).dm.mActorKnownTopics := by
  decide

/-- C7, amended: let scripts not write `mActorKnownTopics`.  After
`startDialogue (actor)` the list `mActorKnownTopics` consists, in store order,
of the lower-cased ids of exactly the Topic records for which the filter
`Filter (actor, -1, talkedTo)` finds an info, where `talkedTo` is the flag of
the actor before the call and the filter is consulted in the state
`talkedToPlayer ()` leaves, before the script of the greeting runs.  The list
has no duplicates when the Topic records of the store have pairwise distinct
lower-cased ids.  When the script of the greeting does not change what the
filter finds, the records of the list are those for which the filter finds an
info in the state after the call. -/
theorem startDialogue_actorKnownTopics (ext : Ext W) (s : Sys W) (actor : Ptr)
    (hkeep : ∀ code st, (ext.run code st).dm.mActorKnownTopics = st.dm.mActorKnownTopics) :
    (startDialogue ext s actor).dm.mActorKnownTopics
        = (ext.dialogs.filter (fun d => decide (d.mType = DialogueType.Topic)
            && (ext.search (ext.talkedToPlayer s.world actor) actor (-1)
                (ext.hasTalkedToPlayer s.world actor) d).isSome)).map
            (fun d => toLower d.mId)
    ∧ (((ext.dialogs.filter (fun d => decide (d.mType = DialogueType.Topic))).map
          (fun d => toLower d.mId)).Nodup →
        (startDialogue ext s actor).dm.mActorKnownTopics.Nodup)
    ∧ ((∀ d, ext.search (startDialogue ext s actor).world actor (-1)
              (ext.hasTalkedToPlayer s.world actor) d
            = ext.search (ext.talkedToPlayer s.world actor) actor (-1)
              (ext.hasTalkedToPlayer s.world actor) d) →
        (startDialogue ext s actor).dm.mActorKnownTopics
          = (ext.dialogs.filter (fun d => decide (d.mType = DialogueType.Topic)
              && (ext.search (startDialogue ext s actor).world actor (-1)
                  (ext.hasTalkedToPlayer s.world actor) d).isSome)).map
              (fun d => toLower d.mId)) := by
  have hl : (startDialogue ext s actor).dm.mActorKnownTopics
      = (ext.dialogs.filter (fun d => decide (d.mType = DialogueType.Topic)
          && (ext.search (ext.talkedToPlayer s.world actor) actor (-1)
              (ext.hasTalkedToPlayer s.world actor) d).isSome)).map
          (fun d => toLower d.mId) := by
    unfold startDialogue
    rw [greetingLoop_actorKnownTopics ext _ _ _ _ _ hkeep (by simp [updateTopics_eq])]
    simp [updateTopics_eq]
  refine ⟨hl, ?_, ?_⟩
  · intro hstore
    rw [hl]
    refine List.Nodup.sublist (List.Sublist.map _ ?_) hstore
    refine List.monotone_filter_right _ ?_
    intro d hd
    simp only [Bool.and_eq_true] at hd
    exact hd.1
  · intro hsame
    rw [hl]
    simp only [hsame]

/-- In the sample environment the ids of the store are distinct and the
scripts only ask questions or write the journal; after `startDialogue` the
actor would talk about `"background"` and `"mages guild"`, in store order, and
not about `"secret"`, for which the filter finds nothing. -/
theorem startDialogue_actorKnownTopics_witness :
    ((demoExt.dialogs.filter (fun d => decide (d.mType = DialogueType.Topic))).map
      (fun d => toLower d.mId)).Nodup
    ∧ (startDialogue demoExt demoInit demoActor).dm.mActorKnownTopics.Nodup
    ∧ (startDialogue demoExt demoInit demoActor).dm.mActorKnownTopics
        = ["background", "mages guild"] := by
  have h := startDialogue_actorKnownTopics demoExt demoInit demoActor
    (by
      intro code st
      simp only [demoExt, demoRun, askQuestion]
      split_ifs <;> rfl)
  refine ⟨by decide, h.2.1 (by decide), ?_⟩
  rw [h.1]
  decide

/-- C8: the filter of the greeting scan is `Filter (actor, -1, talkedTo)`,
with `talkedTo` the flag of the actor before the call, consulted in the state
`talkedToPlayer ()` leaves.  If `d` is the first Greeting record of the store,
in iteration order, for which this filter finds an info, then
`startDialogue (actor)` sends to the window, after the calls of the two topic
updates, the response of that info once, runs the script of the info, sends
nothing after the script, and ends with `mLastTopic` the id of `d` and
`mLastDialogue` the info.  If the filter finds no info for any Greeting record,
`startDialogue` sends no text and leaves `mLastTopic` and `mLastDialogue`
unchanged. -/
theorem startDialogue_greeting (ext : Ext W) (s : Sys W) (actor : Ptr) :
    (∀ pre d post info,
        ext.dialogs = pre ++ d :: post →
        d.mType = DialogueType.Greeting →
        ext.search (ext.talkedToPlayer s.world actor) actor (-1)
          (ext.hasTalkedToPlayer s.world actor) d = some info →
        (∀ d' ∈ pre, d'.mType = DialogueType.Greeting →
          ext.search (ext.talkedToPlayer s.world actor) actor (-1)
            (ext.hasTalkedToPlayer s.world actor) d' = none) →
        ∃ (s2 : Sys W) (services : Nat) (keyWords1 keyWords2 : List String),
          (startDialogue ext s actor).win = (executeScript ext s2 info.mResultScript).win
          ∧ s2.win = s.win ++ [WinEvent.pushGuiMode, WinEvent.startDialogue (ext.getName actor),
              WinEvent.setServices services, WinEvent.setKeywords keyWords1,
              WinEvent.setServices services, WinEvent.setKeywords keyWords2,
              WinEvent.addText info.mResponse]
          ∧ (startDialogue ext s actor).dm.mLastTopic = d.mId
          ∧ (startDialogue ext s actor).dm.mLastDialogue = info)
    ∧ ((∀ d ∈ ext.dialogs, d.mType = DialogueType.Greeting →
          ext.search (ext.talkedToPlayer s.world actor) actor (-1)
            (ext.hasTalkedToPlayer s.world actor) d = none) →
        (∃ (services : Nat) (keyWords : List String),
          (startDialogue ext s actor).win
            = s.win ++ [WinEvent.pushGuiMode, WinEvent.startDialogue (ext.getName actor),
                WinEvent.setServices services, WinEvent.setKeywords keyWords])
        ∧ (startDialogue ext s actor).dm.mLastTopic = s.dm.mLastTopic
        ∧ (startDialogue ext s actor).dm.mLastDialogue = s.dm.mLastDialogue) := by
  constructor
  · intro pre d post info hsplit hg hd hno
    unfold startDialogue
    rw [hsplit, greetingLoop_first ext _ _ _ _ pre post d info hg
      (by simpa [updateTopics_eq] using hd) (by simpa [updateTopics_eq] using hno)]
    simp only [parseText, updateTopics_eq, List.append_assoc, List.cons_append,
      List.nil_append]
    exact ⟨_, _, _, _, rfl, rfl, trivial, trivial⟩
  · intro hno
    unfold startDialogue
    rw [greetingLoop_none ext _ _ _ _ _ (by simpa [updateTopics_eq] using hno)]
    simp only [updateTopics_eq, List.append_assoc, List.cons_append, List.nil_append]
    exact ⟨⟨_, _, rfl⟩, trivial, trivial⟩

/-- In the sample store the first record is a Topic, the second is the
greeting `"Greeting 0"`, whose first info holds at a first meeting, and the
third is the greeting `"Greeting 1"`, which would match too.  `startDialogue`
records `"Greeting 0"` and its info, and the window receives one text: the
response of that info. -/
theorem startDialogue_greeting_witness :
    (startDialogue demoExt demoInit demoActor).dm.mLastTopic = "Greeting 0"
    ∧ (startDialogue demoExt demoInit demoActor).dm.mLastDialogue
        = ⟨"first meeting", "Welcome, stranger. Will you join the Mages Guild?", "choice", ""⟩
    ∧ (startDialogue demoExt demoInit demoActor).win.filter WinEvent.isText
        = [WinEvent.addText "Welcome, stranger. Will you join the Mages Guild?"] := by
  obtain ⟨s2, services, k1, k2, h2, h1, h3, h4⟩ :=
    (startDialogue_greeting demoExt demoInit demoActor).1
      [⟨"Background", DialogueType.Topic, [⟨"always", "I am a guard.", "", ""⟩]⟩]
      ⟨"Greeting 0", DialogueType.Greeting,
        [⟨"first meeting", "Welcome, stranger. Will you join the Mages Guild?", "choice", ""⟩,
         ⟨"always", "You again. Try visiting the Mages Guild", "", ""⟩]⟩
      (demoDialogs.drop 2)
      ⟨"first meeting", "Welcome, stranger. Will you join the Mages Guild?", "choice", ""⟩
      (by decide) (by decide) (by decide) (by decide)
  refine ⟨h3, h4, ?_⟩
  rw [h2]
  simp [executeScript, demoExt, demoCompile, demoRun, askQuestion, h1, demoInit, WinEvent.isText]

/-- C9: assume that `talkedToPlayer ()` sets the flag that
`hasTalkedToPlayer ()` reads, and that scripts neither write `mTalkedTo` nor
clear that flag.  Then `startDialogue (actor)` stores in `mTalkedTo` the flag
the actor had before the call and leaves the flag of the actor set.  The
result of `startDialogue`, and of any later sequence of calls other than
`startDialogue`, is the same for any two filters that agree when built with the
stored value, so every filter is built with that value; and no such call
changes `mTalkedTo`. -/
theorem startDialogue_talkedTo (ext : Ext W) (s : Sys W) (actor : Ptr)
    (hset : ∀ w a, ext.hasTalkedToPlayer (ext.talkedToPlayer w a) a = true)
    (hscript : ∀ code st, (ext.run code st).dm.mTalkedTo = st.dm.mTalkedTo)
    (hflag : ∀ code st a, ext.hasTalkedToPlayer st.world a = true →
      ext.hasTalkedToPlayer (ext.run code st).world a = true) :
    (startDialogue ext s actor).dm.mTalkedTo = ext.hasTalkedToPlayer s.world actor
    ∧ ext.hasTalkedToPlayer (startDialogue ext s actor).world actor = true
    ∧ (∀ search' : W → Ptr → Int → Bool → Dialogue → Option DialInfo,
        (∀ w a c d, search' w a c (ext.hasTalkedToPlayer s.world actor) d
          = ext.search w a c (ext.hasTalkedToPlayer s.world actor) d) →
        startDialogue { ext with search := search' } s actor = startDialogue ext s actor)
    ∧ (∀ ops : List Op, (∀ op ∈ ops, ∀ a, op ≠ Op.startDialogue a) →
        (steps ext (startDialogue ext s actor) ops).dm.mTalkedTo
          = ext.hasTalkedToPlayer s.world actor
        ∧ ∀ search' : W → Ptr → Int → Bool → Dialogue → Option DialInfo,
          (∀ w a c d, search' w a c (ext.hasTalkedToPlayer s.world actor) d
            = ext.search w a c (ext.hasTalkedToPlayer s.world actor) d) →
          steps { ext with search := search' } (startDialogue ext s actor) ops
            = steps ext (startDialogue ext s actor) ops) := by
  have h1 : (startDialogue ext s actor).dm.mTalkedTo = ext.hasTalkedToPlayer s.world actor := by
    unfold startDialogue
    rw [greetingLoop_talkedTo ext _ _ _ _ _ hscript]
    simp [updateTopics_eq]
  refine ⟨h1, ?_, fun search' h => startDialogue_search ext search' s actor h, ?_⟩
  · unfold startDialogue
    exact greetingLoop_flag ext _ _ _ _ _ _ hflag (by simpa [updateTopics_eq] using hset _ _)
  · intro ops hops
    refine ⟨?_, fun search' h => ?_⟩
    · rw [steps_talkedTo ext _ ops hscript hops, h1]
    · exact steps_search ext search' _ ops hscript hops (by rw [h1]; exact h)

/-- In the sample state after construction the sample actor has not talked to
the player.  `startDialogue` stores false in `mTalkedTo` and sets the flag of
the actor; the stored value is still false after the keyword `"background"`
and the answer `"no"`. -/
theorem startDialogue_talkedTo_witness :
    demoExt.hasTalkedToPlayer demoInit.world demoActor = false
    ∧ (startDialogue demoExt demoInit demoActor).dm.mTalkedTo = false
    ∧ demoExt.hasTalkedToPlayer (startDialogue demoExt demoInit demoActor).world demoActor = true
    ∧ (steps demoExt (startDialogue demoExt demoInit demoActor)
        [Op.keywordSelected "background", Op.questionAnswered "no"]).dm.mTalkedTo = false := by
  have h := startDialogue_talkedTo demoExt demoInit demoActor
    (by
      intro w a
      simp only [demoExt]
      split_ifs with hm <;> simp [hm])
    (by
      intro code st
      simp only [demoExt, demoRun, askQuestion]
      split_ifs <;> rfl)
    (by
      intro code st a ha
      simp only [demoExt, demoRun, askQuestion] at ha ⊢
      split_ifs <;> exact ha)
  refine ⟨by decide, h.1, h.2.1, ?_⟩
  refine (h.2.2.2 [Op.keywordSelected "background", Op.questionAnswered "no"] ?_).1
  intro op hop a
  simp only [List.mem_cons, List.mem_singleton, List.not_mem_nil, or_false] at hop
  rcases hop with rfl | rfl <;> exact Op.noConfusion

/-! ## Selecting a keyword that does not resolve -/

/-- C10: when no forced choice is pending and the keyword does not resolve
(it is not a key of the dialogue index, or its record is not a Topic, or the
filter finds no info), `keywordSelected (keyword)` sends neither a title nor a
text, leaves `mKnownTopics`, `mLastTopic` and `mLastDialogue` unchanged, and
still recomputes `mActorKnownTopics` and sends the service set and the keyword
list to the window. -/
theorem keywordSelected_unresolved (ext : Ext W) (s : Sys W) (keyword : String)
    (hc : s.dm.mIsInChoice = false)
    (hno : ∀ dialogue, StdMap.find s.dm.mDialogueMap keyword = some dialogue →
      dialogue.mType = DialogueType.Topic →
      ext.search s.world s.dm.mActor s.dm.mChoice s.dm.mTalkedTo dialogue = none) :
    (keywordSelected ext s keyword).win
        = s.win ++ [WinEvent.setServices (windowServices ext.flags s.dm.mActor),
            WinEvent.setKeywords (listSort stringCompareNoCase
              ((ext.dialogs.filter (fun d => decide (d.mType = DialogueType.Topic)
                && (ext.search s.world s.dm.mActor (-1) s.dm.mTalkedTo d).isSome
                && (StdMap.find s.dm.mKnownTopics (toLower d.mId)).isSome)).map
                (fun d => d.mId)))]
    ∧ (∀ e ∈ (keywordSelected ext s keyword).win.drop s.win.length, WinEvent.isText e = false)
    ∧ (keywordSelected ext s keyword).dm.mKnownTopics = s.dm.mKnownTopics
    ∧ (keywordSelected ext s keyword).dm.mLastTopic = s.dm.mLastTopic
    ∧ (keywordSelected ext s keyword).dm.mLastDialogue = s.dm.mLastDialogue
    ∧ (keywordSelected ext s keyword).dm.mActorKnownTopics
        = (ext.dialogs.filter (fun d => decide (d.mType = DialogueType.Topic)
            && (ext.search s.world s.dm.mActor (-1) s.dm.mTalkedTo d).isSome)).map
            (fun d => toLower d.mId) := by
  have hb : keywordSelectedBody ext s keyword = s := by
    unfold keywordSelectedBody
    cases hd : StdMap.find s.dm.mDialogueMap keyword with
    | none => simp [hc]
    | some dialogue =>
      by_cases ht : dialogue.mType = DialogueType.Topic
      · simp [hc, ht, hno dialogue hd ht]
      · simp [hc, ht]
  have hk : keywordSelected ext s keyword = updateTopics ext s := by
    simp [keywordSelected, hb]
  rw [hk, updateTopics_eq]
  refine ⟨rfl, ?_, rfl, rfl, rfl, rfl⟩
  intro e he
  simp only [List.drop_left] at he
  rcases List.mem_cons.1 he with h | h
  · rw [h]; rfl
  · rw [List.mem_singleton.1 h]; rfl

/-- In the sample state after a greeting without question, no choice is
pending and the store has no record `"rumors"`: selecting `"rumors"` sends only
the services and the keyword list, and the last topic stays the greeting. -/
theorem keywordSelected_unresolved_witness :
    (startDialogue demoExt demoReturning demoActor).dm.mIsInChoice = false
    ∧ StdMap.find (startDialogue demoExt demoReturning demoActor).dm.mDialogueMap "rumors" = none
    ∧ (keywordSelected demoExt (startDialogue demoExt demoReturning demoActor) "rumors").win
        = (startDialogue demoExt demoReturning demoActor).win
          ++ [WinEvent.setServices 1, WinEvent.setKeywords ["Mages Guild"]]
    ∧ (keywordSelected demoExt (startDialogue demoExt demoReturning demoActor) "rumors"
        ).dm.mLastTopic = "Greeting 0" := by
  have h := keywordSelected_unresolved demoExt (startDialogue demoExt demoReturning demoActor)
    "rumors" (by decide) (by
      intro dialogue hd
      have hn : StdMap.find (startDialogue demoExt demoReturning demoActor).dm.mDialogueMap
          "rumors" = none := by decide
      rw [hn] at hd
      exact Option.noConfusion hd)
  refine ⟨by decide, by decide, ?_, ?_⟩
  · rw [h.1]; decide
  · rw [h.2.2.2.1]; decide

/-! ## The topic update -/

/-- C18: `updateTopics` changes no member of the manager other than
`mActorKnownTopics`: `mChoice` after the call is `mChoice` before it, and
`mIsInChoice`, `mChoiceMap`, `mKnownTopics`, `mLastTopic`, `mLastDialogue` and
the two disposition changes are unchanged, as is the state of the
collaborators.  The filter it consults is built with choice -1: the new list
consists of the Topic records for which `Filter (mActor, -1, mTalkedTo)` finds
an info, the result is the same for any two filters that agree when built with
choice -1, and the list (and the calls sent to the window) do not depend on
the value of `mChoice` before the call. -/
theorem updateTopics_frame (ext : Ext W) (s : Sys W) :
    (updateTopics ext s).dm = { s.dm with
        mActorKnownTopics := (updateTopics ext s).dm.mActorKnownTopics }
    ∧ (updateTopics ext s).dm.mChoice = s.dm.mChoice
    ∧ (updateTopics ext s).dm.mIsInChoice = s.dm.mIsInChoice
    ∧ (updateTopics ext s).dm.mChoiceMap = s.dm.mChoiceMap
    ∧ (updateTopics ext s).dm.mKnownTopics = s.dm.mKnownTopics
    ∧ (updateTopics ext s).dm.mLastTopic = s.dm.mLastTopic
    ∧ (updateTopics ext s).dm.mLastDialogue = s.dm.mLastDialogue
    ∧ (updateTopics ext s).dm.mTemporaryDispositionChange = s.dm.mTemporaryDispositionChange
    ∧ (updateTopics ext s).dm.mPermanentDispositionChange = s.dm.mPermanentDispositionChange
    ∧ (updateTopics ext s).world = s.world
    ∧ (updateTopics ext s).dm.mActorKnownTopics
        = (ext.dialogs.filter (fun d => decide (d.mType = DialogueType.Topic)
            && (ext.search s.world s.dm.mActor (-1) s.dm.mTalkedTo d).isSome)).map
            (fun d => toLower d.mId)
    ∧ (∀ search' : W → Ptr → Int → Bool → Dialogue → Option DialInfo,
        (∀ w a t d, search' w a (-1) t d = ext.search w a (-1) t d) →
        updateTopics { ext with search := search' } s = updateTopics ext s)
    ∧ (∀ choice : Int,
        (updateTopics ext { s with dm := { s.dm with mChoice := choice } }).dm.mActorKnownTopics
          = (updateTopics ext s).dm.mActorKnownTopics
        ∧ (updateTopics ext { s with dm := { s.dm with mChoice := choice } }).win
          = (updateTopics ext s).win) := by
  refine ⟨?_, ?_, ?_, ?_, ?_, ?_, ?_, ?_, ?_, ?_, ?_, ?_, ?_⟩
  · rw [updateTopics_eq]
  · rw [updateTopics_eq]
  · rw [updateTopics_eq]
  · rw [updateTopics_eq]
  · rw [updateTopics_eq]
  · rw [updateTopics_eq]
  · rw [updateTopics_eq]
  · rw [updateTopics_eq]
  · rw [updateTopics_eq]
  · rw [updateTopics_eq]
  · rw [updateTopics_eq]
  · intro search' h
    rw [updateTopics_eq, updateTopics_eq]
    simp [h]
  · intro choice
    rw [updateTopics_eq, updateTopics_eq]
    exact ⟨rfl, rfl⟩

/-- In the sample state where the answer `"yes"` (choice 1) was given after a
greeting, `mChoice` is 1; `updateTopics` leaves it at 1 and computes the list
of the filter built with choice -1. -/
theorem updateTopics_frame_witness :
    (questionAnswered demoExt demoGreeted "yes").dm.mChoice = 1
    ∧ (updateTopics demoExt (questionAnswered demoExt demoGreeted "yes")).dm.mChoice = 1
    ∧ (updateTopics demoExt (questionAnswered demoExt demoGreeted "yes")).dm.mActorKnownTopics
        = ["background", "mages guild"] := by
  have h := updateTopics_frame demoExt (questionAnswered demoExt demoGreeted "yes")
  refine ⟨by decide, ?_, ?_⟩
  · rw [h.2.1]; decide
  · rw [h.2.2.2.2.2.2.2.2.2.2.1]; decide

/-! ## Asking and answering -/

/-- C19: after `askQuestion (q, c)` on a state with an empty `mChoiceMap`, the
map is exactly `toLower (q) -> c` and `mIsInChoice` is true.  An answer `a` is
a key of the map (with code `c`) if and only if `a = toLower (q)`: for that
answer `questionAnswered` runs its body with `mChoice = c` and ends with
`updateTopics`; any other answer is ignored, the state being returned
unchanged.  In particular the question text `q` itself is ignored when it
contains a character in `'A'..'Z'`, since the answer is looked up as given. -/
theorem askQuestion_then_answer (ext : Ext W) (s : Sys W) (q : String) (c : Int)
    (hempty : s.dm.mChoiceMap = []) :
    (askQuestion s q c).dm.mChoiceMap = [(toLower q, c)]
    ∧ (askQuestion s q c).dm.mIsInChoice = true
    ∧ (∀ a, StdMap.find (askQuestion s q c).dm.mChoiceMap a = some c ↔ a = toLower q)
    ∧ (∀ a, a ∈ StdMap.keys (askQuestion s q c).dm.mChoiceMap ↔ a = toLower q)
    ∧ questionAnswered ext (askQuestion s q c) (toLower q)
        = updateTopics ext (questionAnsweredBody ext
            { askQuestion s q c with dm := { (askQuestion s q c).dm with mChoice := c } })
    ∧ (∀ a, a ≠ toLower q → questionAnswered ext (askQuestion s q c) a = askQuestion s q c)
    ∧ ((∃ ch ∈ q.data, 65 ≤ ch.toNat ∧ ch.toNat ≤ 90) →
        questionAnswered ext (askQuestion s q c) q = askQuestion s q c) := by
  have hm : (askQuestion s q c).dm.mChoiceMap = [(toLower q, c)] := by
    simp [askQuestion, hempty, StdMap.set]
  have hf : ∀ a, StdMap.find (askQuestion s q c).dm.mChoiceMap a
      = if toLower q = a then some c else none := by
    intro a
    rw [hm]
    simp [StdMap.find]
  have hign : ∀ a, a ≠ toLower q →
      questionAnswered ext (askQuestion s q c) a = askQuestion s q c := by
    intro a ha
    have hn : StdMap.find (askQuestion s q c).dm.mChoiceMap a = none := by
      rw [hf, if_neg (fun e => ha e.symm)]
    unfold questionAnswered
    rw [hn]
  refine ⟨hm, rfl, ?_, ?_, ?_, hign, ?_⟩
  · intro a
    rw [hf]
    by_cases he : toLower q = a
    · simp [he]
    · have he' : ¬ a = toLower q := fun e => he e.symm
      simp [he, he']
  · intro a
    rw [hm]
    simp [StdMap.keys]
  · unfold questionAnswered
    rw [hf, if_pos rfl]
  · intro hu
    exact hign q (fun e => toLower_ne_of_upper q hu e.symm)

/-- In the sample state after a greeting without question the map is empty.
After `askQuestion ("Yes", 1)` the map is `"yes" -> 1`; the answer `"Yes"` is
ignored, and the answer `"yes"` is not: it sets `mChoice` to 1. -/
theorem askQuestion_then_answer_witness :
    (startDialogue demoExt demoReturning demoActor).dm.mChoiceMap = []
    ∧ (askQuestion (startDialogue demoExt demoReturning demoActor) "Yes" 1).dm.mChoiceMap
        = [("yes", 1)]
    ∧ questionAnswered demoExt
        (askQuestion (startDialogue demoExt demoReturning demoActor) "Yes" 1) "Yes"
        = askQuestion (startDialogue demoExt demoReturning demoActor) "Yes" 1
    ∧ (questionAnswered demoExt
        (askQuestion (startDialogue demoExt demoReturning demoActor) "Yes" 1) "yes").dm.mChoice
        = 1 := by
  have h := askQuestion_then_answer demoExt (startDialogue demoExt demoReturning demoActor)
    "Yes" 1 (by decide)
  refine ⟨by decide, ?_, ?_, by decide⟩
  · rw [h.1]; decide
  · exact h.2.2.2.2.2.2 ⟨'Y', by decide, by decide⟩

/-- C20: let a forced choice be pending and let `mLastTopic` not be a key of
the dialogue index with a Topic record (it is not a key, or its record is not
a Topic).  Then every call of `keywordSelected` and every call of
`questionAnswered` sends no title and no text to the window and leaves
`mIsInChoice` true, `mChoiceMap` unchanged and `mLastTopic` unchanged; and so
does every sequence of such calls. -/
theorem choice_never_left (ext : Ext W) (s : Sys W)
    (hc : s.dm.mIsInChoice = true)
    (hlast : ∀ d, StdMap.find s.dm.mDialogueMap s.dm.mLastTopic = some d →
      d.mType ≠ DialogueType.Topic) :
    (∀ keyword,
      (keywordSelected ext s keyword).dm.mIsInChoice = true
      ∧ (keywordSelected ext s keyword).dm.mChoiceMap = s.dm.mChoiceMap
      ∧ (keywordSelected ext s keyword).dm.mLastTopic = s.dm.mLastTopic
      ∧ ∃ events, (keywordSelected ext s keyword).win = s.win ++ events
          ∧ ∀ e ∈ events, WinEvent.isText e = false)
    ∧ (∀ answer,
      (questionAnswered ext s answer).dm.mIsInChoice = true
      ∧ (questionAnswered ext s answer).dm.mChoiceMap = s.dm.mChoiceMap
      ∧ (questionAnswered ext s answer).dm.mLastTopic = s.dm.mLastTopic
      ∧ ∃ events, (questionAnswered ext s answer).win = s.win ++ events
          ∧ ∀ e ∈ events, WinEvent.isText e = false)
    ∧ (∀ ops : List Op,
      (∀ op ∈ ops, (∃ keyword, op = Op.keywordSelected keyword)
        ∨ (∃ answer, op = Op.questionAnswered answer)) →
      (steps ext s ops).dm.mIsInChoice = true
      ∧ (steps ext s ops).dm.mChoiceMap = s.dm.mChoiceMap
      ∧ (steps ext s ops).dm.mLastTopic = s.dm.mLastTopic
      ∧ ∃ events, (steps ext s ops).win = s.win ++ events
          ∧ ∀ e ∈ events, WinEvent.isText e = false) := by
  refine ⟨?_, ?_, ?_⟩
  · intro keyword
    have h := step_stuck ext s (Op.keywordSelected keyword) hc hlast (Or.inl ⟨keyword, rfl⟩)
    exact ⟨h.1, h.2.1, h.2.2.1, h.2.2.2.2⟩
  · intro answer
    have h := step_stuck ext s (Op.questionAnswered answer) hc hlast (Or.inr ⟨answer, rfl⟩)
    exact ⟨h.1, h.2.1, h.2.2.1, h.2.2.2.2⟩
  · intro ops
    induction ops generalizing s with
    | nil =>
      intro _
      exact ⟨hc, rfl, rfl, [], by simp [steps], by simp⟩
    | cons op ops ih =>
      intro hops
      obtain ⟨h1, h2, h3, h4, ev1, h5, h6⟩ :=
        step_stuck ext s op hc hlast (hops op (List.mem_cons_self _ _))
      obtain ⟨k1, k2, k3, ev2, k5, k6⟩ :=
        ih (step ext s op) h1 (by rw [h4, h3]; exact hlast)
          (fun o ho => hops o (List.mem_cons_of_mem _ ho))
      simp only [steps]
      refine ⟨k1, by rw [k2, h2], by rw [k3, h3], ev1 ++ ev2, ?_, ?_⟩
      · rw [k5, h5, List.append_assoc]
      · intro e he
        rcases List.mem_append.1 he with h | h
        · exact h6 e h
        · exact k6 e h

/-- In the sample state after a greeting that asked a question, the last topic
`"Greeting 0"` is not a key of the index.  After the answer `"yes"`, the
keyword `"background"` and the answer `"no"` the choice is still pending with
both answers in `mChoiceMap`, and the only text in the window is the
greeting. -/
theorem choice_never_left_witness :
    demoGreeted.dm.mIsInChoice = true
    ∧ StdMap.find demoGreeted.dm.mDialogueMap demoGreeted.dm.mLastTopic = none
    ∧ (steps demoExt demoGreeted [Op.questionAnswered "yes", Op.keywordSelected "background",
        Op.questionAnswered "no"]).dm.mIsInChoice = true
    ∧ (steps demoExt demoGreeted [Op.questionAnswered "yes", Op.keywordSelected "background",
        Op.questionAnswered "no"]).dm.mChoiceMap = [("yes", 1), ("no", 2)]
    ∧ (steps demoExt demoGreeted [Op.questionAnswered "yes", Op.keywordSelected "background",
        Op.questionAnswered "no"]).win.filter WinEvent.isText
        = [WinEvent.addText "Welcome, stranger. Will you join the Mages Guild?"] := by
  have hn : StdMap.find demoGreeted.dm.mDialogueMap demoGreeted.dm.mLastTopic = none := by
    decide
  have h := (choice_never_left demoExt demoGreeted (by decide)
    (by
      intro d hd
      rw [hn] at hd
      exact Option.noConfusion hd)).2.2
    [Op.questionAnswered "yes", Op.keywordSelected "background", Op.questionAnswered "no"]
    (by
      intro op hop
      simp only [List.mem_cons, List.mem_singleton, List.not_mem_nil, or_false] at hop
      rcases hop with rfl | rfl | rfl
      · exact Or.inr ⟨_, rfl⟩
      · exact Or.inl ⟨_, rfl⟩
      · exact Or.inr ⟨_, rfl⟩)
  refine ⟨by decide, hn, h.1, ?_, by decide⟩
  rw [h.2.1]
  decide

/-- C17: let `answer` be a key of `mChoiceMap` with code `choice`, let
`mLastTopic` be a key of the dialogue index whose record is a Topic, and let
`Filter (mActor, choice, mTalkedTo)` find the info `info` for that record.
Then `questionAnswered (answer)` hands to the script of `info` a state `s3` in
which `mChoice` is -1, `mChoiceMap` is empty, `mIsInChoice` is false,
`mLastTopic` is unchanged and the window has received, after one topic update,
the response of `info` once; after the script it records `info` in
`mLastDialogue` and sends one more topic update, and no text.  When the script
has no effect, the call ends with `mChoice = -1`, an empty `mChoiceMap`, no
pending choice, the same `mLastTopic` and exactly one text sent. -/
theorem questionAnswered_resolved (ext : Ext W) (s : Sys W) (answer : String) (choice : Int)
    (dialogue : Dialogue) (info : DialInfo)
    (h : StdMap.find s.dm.mChoiceMap answer = some choice)
    (hd : StdMap.find s.dm.mDialogueMap s.dm.mLastTopic = some dialogue)
    (ht : dialogue.mType = DialogueType.Topic)
    (hs : ext.search s.world s.dm.mActor choice s.dm.mTalkedTo dialogue = some info) :
    (∃ s3 : Sys W,
        (∃ services keyWords, s3.win = s.win ++ [WinEvent.setServices services,
            WinEvent.setKeywords keyWords, WinEvent.addText info.mResponse])
        ∧ s3.dm.mChoice = -1
        ∧ s3.dm.mChoiceMap = []
        ∧ s3.dm.mIsInChoice = false
        ∧ s3.dm.mLastTopic = s.dm.mLastTopic
        ∧ (questionAnswered ext s answer).dm.mChoice
            = (executeScript ext s3 info.mResultScript).dm.mChoice
        ∧ (questionAnswered ext s answer).dm.mChoiceMap
            = (executeScript ext s3 info.mResultScript).dm.mChoiceMap
        ∧ (questionAnswered ext s answer).dm.mIsInChoice
            = (executeScript ext s3 info.mResultScript).dm.mIsInChoice
        ∧ (questionAnswered ext s answer).dm.mLastTopic
            = (executeScript ext s3 info.mResultScript).dm.mLastTopic
        ∧ (∃ services keyWords, (questionAnswered ext s answer).win
            = (executeScript ext s3 info.mResultScript).win
              ++ [WinEvent.setServices services, WinEvent.setKeywords keyWords]))
    ∧ (questionAnswered ext s answer).dm.mLastDialogue = info
    ∧ ((∀ st : Sys W, executeScript ext st info.mResultScript = st) →
        (questionAnswered ext s answer).dm.mChoice = -1
        ∧ (questionAnswered ext s answer).dm.mChoiceMap = []
        ∧ (questionAnswered ext s answer).dm.mIsInChoice = false
        ∧ (questionAnswered ext s answer).dm.mLastTopic = s.dm.mLastTopic
        ∧ ((questionAnswered ext s answer).win.drop s.win.length).filter WinEvent.isText
            = [WinEvent.addText info.mResponse]) := by
  obtain ⟨s3, hs3⟩ : ∃ s3 : Sys W, s3 =
      { parseText ext
          { s with dm := { s.dm with mChoiceMap := [], mChoice := -1, mIsInChoice := false } }
          info.mResponse with
        win := (parseText ext
          { s with dm := { s.dm with mChoiceMap := [], mChoice := -1, mIsInChoice := false } }
          info.mResponse).win ++ [WinEvent.addText info.mResponse] } := ⟨_, rfl⟩
  have hq : questionAnswered ext s answer
      = updateTopics ext
        { executeScript ext s3 info.mResultScript with
          dm := { (executeScript ext s3 info.mResultScript).dm with
            mLastTopic := (executeScript ext s3 info.mResultScript).dm.mLastTopic,
            mLastDialogue := info } } := by
    rw [hs3]
    simp [questionAnswered, h, questionAnsweredBody, hd, ht, hs]
  have hw : ∃ services keyWords, s3.win = s.win ++ [WinEvent.setServices services,
      WinEvent.setKeywords keyWords, WinEvent.addText info.mResponse] := by
    rw [hs3]
    simp only [parseText, updateTopics_eq, List.append_assoc, List.cons_append,
      List.nil_append]
    exact ⟨_, _, rfl⟩
  have h1 : s3.dm.mChoice = -1 := by rw [hs3]; simp [parseText, updateTopics_eq]
  have h2 : s3.dm.mChoiceMap = [] := by rw [hs3]; simp [parseText, updateTopics_eq]
  have h3 : s3.dm.mIsInChoice = false := by rw [hs3]; simp [parseText, updateTopics_eq]
  have h4 : s3.dm.mLastTopic = s.dm.mLastTopic := by
    rw [hs3]; simp [parseText, updateTopics_eq]
  have hfin : ∃ services keyWords, (questionAnswered ext s answer).win
      = (executeScript ext s3 info.mResultScript).win
        ++ [WinEvent.setServices services, WinEvent.setKeywords keyWords] := by
    rw [hq, updateTopics_eq]
    exact ⟨_, _, rfl⟩
  refine ⟨⟨s3, hw, h1, h2, h3, h4, ?_, ?_, ?_, ?_, hfin⟩, ?_, ?_⟩
  · rw [hq, updateTopics_eq]
  · rw [hq, updateTopics_eq]
  · rw [hq, updateTopics_eq]
  · rw [hq, updateTopics_eq]
  · rw [hq, updateTopics_eq]
  · intro hno
    obtain ⟨sv, kw, hw'⟩ := hw
    obtain ⟨sv2, kw2, hfin'⟩ := hfin
    rw [hno s3] at hfin'
    refine ⟨?_, ?_, ?_, ?_, ?_⟩
    · rw [hq, updateTopics_eq, hno s3]; exact h1
    · rw [hq, updateTopics_eq, hno s3]; exact h2
    · rw [hq, updateTopics_eq, hno s3]; exact h3
    · rw [hq, updateTopics_eq, hno s3]; exact h4
    · rw [hfin', hw', List.append_assoc, List.drop_left]
      rfl

/-- In the sample state where the topic `"mages guild"` has asked its question,
the answer `"yes"` has code 1 and the filter built with choice 1 finds the info
`"choice 1"`: it is recorded in `mLastDialogue`, the last topic stays
`"mages guild"`, and exactly one text is sent. -/
theorem questionAnswered_resolved_witness :
    StdMap.find demoAsked.dm.mChoiceMap "yes" = some 1
    ∧ (questionAnswered demoExt demoAsked "yes").dm.mLastDialogue
        = ⟨"choice 1", "Then welcome to the guild.", "journal", ""⟩
    ∧ (questionAnswered demoExt demoAsked "yes").dm.mLastTopic = "mages guild"
    ∧ (questionAnswered demoExt demoAsked "yes").dm.mChoice = -1
    ∧ ((questionAnswered demoExt demoAsked "yes").win.drop demoAsked.win.length).filter
        WinEvent.isText = [WinEvent.addText "Then welcome to the guild."] := by
  have h := questionAnswered_resolved demoExt demoAsked "yes" 1
    ⟨"Mages Guild", DialogueType.Topic,
      [⟨"choice 1", "Then welcome to the guild.", "journal", ""⟩,
       ⟨"choice 2", "A pity.", "", ""⟩,
       ⟨"always", "Do you want to join the guild?", "choice", ""⟩]⟩
    ⟨"choice 1", "Then welcome to the guild.", "journal", ""⟩
    (by decide) (by decide) (by decide) (by decide)
  exact ⟨by decide, h.2.1, by decide, by decide, by decide⟩

/-! ## What `startDialogue` and `goodbyeSelected` reset -/

/-- C11, as stated, fails.  In the sample state without pending choice the
keywords `"background"` and `"Background"` have the same lower-cased form; the
first one finds the Topic record and the window receives its title and the
response, the second one finds nothing and the window receives no text, and
the two calls leave different values in `mLastDialogue`. -/
theorem keywordSelected_casing_counterexample :
    toLower "Background" = toLower "background"
    ∧ demoBrowsing.dm.mIsInChoice = false
    ∧ ((keywordSelected demoExt demoBrowsing "background").win.drop
          demoBrowsing.win.length).filter WinEvent.isText
        = [WinEvent.addTitle "background", WinEvent.addText "I am a guard."]
    ∧ ((keywordSelected demoExt demoBrowsing "Background").win.drop
          demoBrowsing.win.length).filter WinEvent.isText = []
    ∧ (keywordSelected demoExt demoBrowsing "background").dm.mLastDialogue
        ≠ (keywordSelected demoExt demoBrowsing "Background").dm.mLastDialogue := by
  decide

/-- C11, amended: `keywordSelected` looks the keyword up in the dialogue index
as given, without lower-casing it.  When no forced choice is pending and the
keys of the index are in lower-case form, a keyword that is not in lower-case
form finds no record: the call sends neither a title nor a text, leaves
`mKnownTopics`, `mLastTopic` and `mLastDialogue` unchanged and only performs the
topic update, whatever the lower-cased keyword would find.  Hence two keywords
with the same lower-cased form are treated alike when neither of them is in
lower-case form. -/
theorem keywordSelected_exact_key (ext : Ext W) (s : Sys W)
    (hc : s.dm.mIsInChoice = false)
    (hkeys : ∀ key ∈ StdMap.keys s.dm.mDialogueMap, toLower key = key) :
    (∀ k, toLower k ≠ k →
      StdMap.find s.dm.mDialogueMap k = none
      ∧ keywordSelected ext s k = updateTopics ext s
      ∧ (keywordSelected ext s k).win
          = s.win ++ [WinEvent.setServices (windowServices ext.flags s.dm.mActor),
              WinEvent.setKeywords (listSort stringCompareNoCase
                ((ext.dialogs.filter (fun d => decide (d.mType = DialogueType.Topic)
                  && (ext.search s.world s.dm.mActor (-1) s.dm.mTalkedTo d).isSome
                  && (StdMap.find s.dm.mKnownTopics (toLower d.mId)).isSome)).map
                  (fun d => d.mId)))]
      ∧ (keywordSelected ext s k).dm.mKnownTopics = s.dm.mKnownTopics
      ∧ (keywordSelected ext s k).dm.mLastTopic = s.dm.mLastTopic
      ∧ (keywordSelected ext s k).dm.mLastDialogue = s.dm.mLastDialogue)
    ∧ (∀ k1 k2, toLower k1 = toLower k2 → toLower k1 ≠ k1 → toLower k2 ≠ k2 →
        keywordSelected ext s k1 = keywordSelected ext s k2) := by
  have hnone : ∀ k, toLower k ≠ k → StdMap.find s.dm.mDialogueMap k = none := by
    intro k hk
    rw [StdMap.find_eq_none_iff]
    intro hmem
    exact hk (hkeys k hmem)
  have hupd : ∀ k, toLower k ≠ k → keywordSelected ext s k = updateTopics ext s := by
    intro k hk
    have hb : keywordSelectedBody ext s k = s := by
      simp [keywordSelectedBody, hc, hnone k hk]
    simp [keywordSelected, hb]
  refine ⟨fun k hk => ⟨hnone k hk, hupd k hk, ?_, ?_, ?_, ?_⟩, ?_⟩
  · rw [hupd k hk, updateTopics_eq]
  · rw [hupd k hk, updateTopics_eq]
  · rw [hupd k hk, updateTopics_eq]
  · rw [hupd k hk, updateTopics_eq]
  · intro k1 k2 _ h1 h2
    rw [hupd k1 h1, hupd k2 h2]

/-- In the sample state without pending choice the keys of the index are in
lower-case form; the keyword `"Background"` is not, it is not a key, and
selecting it leaves the greeting as the last topic. -/
theorem keywordSelected_exact_key_witness :
    demoBrowsing.dm.mIsInChoice = false
    ∧ (∀ key ∈ StdMap.keys demoBrowsing.dm.mDialogueMap, toLower key = key)
    ∧ toLower "Background" ≠ "Background"
    ∧ StdMap.find demoBrowsing.dm.mDialogueMap "Background" = none
    ∧ (keywordSelected demoExt demoBrowsing "Background").dm.mLastTopic = "Greeting 0" := by
  have h := (keywordSelected_exact_key demoExt demoBrowsing (by decide) (by decide)).1
    "Background" (by decide)
  refine ⟨by decide, by decide, by decide, h.1, ?_⟩
  rw [h.2.2.2.2.1]
  decide

/-! ## Repeating `parseText` -/

/-- C12, as stated, fails: the loop of `parseText` runs over the list
`mActorKnownTopics` as it is before the call, and the list is recomputed only
at the end of the call.  In the sample state right after construction the list
is empty: a first `parseText ("Try visiting the Mages Guild")` marks nothing and
fills the list, and the second call marks `"mages guild"` known. -/
theorem parseText_twice_counterexample :
    demoInit.dm.mActorKnownTopics = []
    ∧ (parseText demoExt demoInit "Try visiting the Mages Guild").dm.mKnownTopics = []
    ∧ (parseText demoExt (parseText demoExt demoInit "Try visiting the Mages Guild")
        "Try visiting the Mages Guild").dm.mKnownTopics = [("mages guild", true)] := by
  decide

/-- C12, amended: the second of two calls `parseText (text)` always leaves
`mActorKnownTopics` as the first call left it.  When, before the first call,
`mActorKnownTopics` is the list that `updateTopics` computes in that state (as
it is when `parseText` follows a topic update and nothing the filter reads has
changed in between), the second call leaves all members of the manager and the
state of the collaborators as the first call left them, and sends to the window
the same services and keyword list as the first call. -/
theorem parseText_twice (ext : Ext W) (s : Sys W) (text : String) :
    (parseText ext (parseText ext s text) text).dm.mActorKnownTopics
        = (parseText ext s text).dm.mActorKnownTopics
    ∧ (s.dm.mActorKnownTopics
          = (ext.dialogs.filter (fun d => decide (d.mType = DialogueType.Topic)
              && (ext.search s.world s.dm.mActor (-1) s.dm.mTalkedTo d).isSome)).map
              (fun d => toLower d.mId) →
        (parseText ext (parseText ext s text) text).dm = (parseText ext s text).dm
        ∧ (parseText ext (parseText ext s text) text).world = (parseText ext s text).world
        ∧ ∃ services keyWords,
            (parseText ext s text).win
              = s.win ++ [WinEvent.setServices services, WinEvent.setKeywords keyWords]
            ∧ (parseText ext (parseText ext s text) text).win
              = (parseText ext s text).win
                ++ [WinEvent.setServices services, WinEvent.setKeywords keyWords]) := by
  constructor
  · simp [parseText, updateTopics_eq]
  · intro hfresh
    have hk : parseTextLoop text
        (parseTextLoop text s.dm.mKnownTopics s.dm.mActorKnownTopics)
        ((ext.dialogs.filter (fun d => decide (d.mType = DialogueType.Topic)
          && (ext.search s.world s.dm.mActor (-1) s.dm.mTalkedTo d).isSome)).map
          (fun d => toLower d.mId))
        = parseTextLoop text s.dm.mKnownTopics s.dm.mActorKnownTopics := by
      rw [← hfresh]
      exact parseTextLoop_idem text _ _
    refine ⟨?_, ?_, ?_⟩
    · simp only [parseText, updateTopics_eq, hk]
    · simp only [parseText, updateTopics_eq]
    · simp only [parseText, updateTopics_eq, hk]
      exact ⟨_, _, rfl, rfl⟩

/-- In the sample state after one topic update the list is the one
`updateTopics` computes; the first `parseText ("Try visiting the Mages Guild")`
marks `"mages guild"` known and the second call leaves the map as it is. -/
theorem parseText_twice_witness :
    (parseText demoExt demoTopics "Try visiting the Mages Guild").dm.mKnownTopics
        = [("mages guild", true)]
    ∧ (parseText demoExt (parseText demoExt demoTopics "Try visiting the Mages Guild")
        "Try visiting the Mages Guild").dm.mKnownTopics = [("mages guild", true)] := by
  have h := ((parseText_twice demoExt demoTopics "Try visiting the Mages Guild").2
    (by decide)).1
  refine ⟨by decide, ?_⟩
  rw [h]
  decide

/-! ## The keyword list -/

/-- C13: the keyword list that `updateTopics` sends to the window is a
permutation of the ids of the Topic records of the store for which
`Filter (mActor, -1, mTalkedTo)` finds an info and whose lower-cased id is a
key of `mKnownTopics`; in it `stringCompareNoCase` never holds from a later
element to an earlier one; `stringCompareNoCase` puts a string before every
proper extension of it; and `mActorKnownTopics` holds the lower-cased ids of
the records for which the filter finds an info, in store order. -/
theorem updateTopics_keywords (ext : Ext W) (s : Sys W) :
    (∃ services keyWords,
        (updateTopics ext s).win
          = s.win ++ [WinEvent.setServices services, WinEvent.setKeywords keyWords]
        ∧ keyWords.Perm
            ((ext.dialogs.filter (fun d => decide (d.mType = DialogueType.Topic)
              && (ext.search s.world s.dm.mActor (-1) s.dm.mTalkedTo d).isSome
              && decide (toLower d.mId ∈ StdMap.keys s.dm.mKnownTopics))).map
              (fun d => d.mId))
        ∧ keyWords.Pairwise (fun a b => stringCompareNoCase b a = false))
    ∧ (∀ p q : String, q ≠ "" → stringCompareNoCase p (p ++ q) = true)
    ∧ (updateTopics ext s).dm.mActorKnownTopics
        = (ext.dialogs.filter (fun d => decide (d.mType = DialogueType.Topic)
            && (ext.search s.world s.dm.mActor (-1) s.dm.mTalkedTo d).isSome)).map
            (fun d => toLower d.mId) := by
  have hfilter : ext.dialogs.filter (fun d => decide (d.mType = DialogueType.Topic)
        && (ext.search s.world s.dm.mActor (-1) s.dm.mTalkedTo d).isSome
        && decide (toLower d.mId ∈ StdMap.keys s.dm.mKnownTopics))
      = ext.dialogs.filter (fun d => decide (d.mType = DialogueType.Topic)
        && (ext.search s.world s.dm.mActor (-1) s.dm.mTalkedTo d).isSome
        && (StdMap.find s.dm.mKnownTopics (toLower d.mId)).isSome) := by
    apply List.filter_congr
    intro d _
    congr 1
    have h := StdMap.find_isSome_iff s.dm.mKnownTopics (toLower d.mId)
    by_cases hk : toLower d.mId ∈ StdMap.keys s.dm.mKnownTopics
    · simp [hk, h.2 hk]
    · have hn : ¬ (StdMap.find s.dm.mKnownTopics (toLower d.mId)).isSome = true :=
        fun e => hk (h.1 e)
      simp [hk, hn]
  refine ⟨?_, ?_, ?_⟩
  · rw [updateTopics_eq, hfilter]
    exact ⟨_, _, rfl, (listSort_stringCompareNoCase _).1, (listSort_stringCompareNoCase _).2⟩
  · intro p q hq
    unfold stringCompareNoCase
    rw [String.data_append]
    apply stringCompareNoCaseAux_prefix
    intro hd
    apply hq
    cases q
    simp_all
  · rw [updateTopics_eq]

/-- In the sample state where the player knows `"mages guild"` and has been
told `"Background"`, the window receives the keywords `"Background"` and
`"Mages Guild"` in this order, while `mActorKnownTopics` is in lower case; and
`"Mages"` sorts before `"Mages Guild"`. -/
theorem updateTopics_keywords_witness :
    (updateTopics demoExt (addTopic demoBrowsing "Background")).win.getLast?
        = some (WinEvent.setKeywords ["Background", "Mages Guild"])
    ∧ (updateTopics demoExt (addTopic demoBrowsing "Background")).dm.mActorKnownTopics
        = ["background", "mages guild"]
    ∧ stringCompareNoCase "Mages" ("Mages" ++ " Guild") = true := by
  have h := updateTopics_keywords demoExt (addTopic demoBrowsing "Background")
  refine ⟨by decide, ?_, h.2.1 "Mages" " Guild" (by decide)⟩
  rw [h.2.2]
  decide

/-! ## The services sent to the window -/

/-- C14: let the six service constants of the window be non-zero and pairwise
disjoint bit sets.  The set that `updateTopics` sends with `setServices` is
determined by the value `services` read from the actor (its `mServices` when
it is an NPC or a creature with AI data, 0 otherwise) and by whether the actor
is an NPC with a non-empty `mTransport`.  In that set Trade is present if and
only if `services` has a bit in common with one of `Weapon`, `Armor`,
`Clothing`, `Books`, `Ingredients`, `Picks`, `Probes`, `Lights`, `Apparatus`,
`RepairItem`, `Misc`; BuySpells if and only if with `Spells`; CreateSpells if
and only if with `Spellmaking`; Training if and only if with `Training`;
Enchant if and only if with `Enchanting`; Travel if and only if the actor is
an NPC with transport; and the set has no bit outside the six constants. -/
theorem updateTopics_services (ext : Ext W) (s : Sys W)
    (hne : ∀ a ∈ [ext.flags.Service_Trade, ext.flags.Service_Travel,
      ext.flags.Service_BuySpells, ext.flags.Service_CreateSpells,
      ext.flags.Service_Training, ext.flags.Service_Enchant], a ≠ 0)
    (hdis : [ext.flags.Service_Trade, ext.flags.Service_Travel,
      ext.flags.Service_BuySpells, ext.flags.Service_CreateSpells,
      ext.flags.Service_Training, ext.flags.Service_Enchant].Pairwise
        (fun a b => a &&& b = 0)) :
    (∃ keyWords, (updateTopics ext s).win
        = s.win ++ [WinEvent.setServices (windowServices ext.flags s.dm.mActor),
            WinEvent.setKeywords keyWords])
    ∧ (windowServices ext.flags s.dm.mActor &&& ext.flags.Service_Trade ≠ 0
        ↔ ∃ x ∈ [ext.flags.Weapon, ext.flags.Armor, ext.flags.Clothing, ext.flags.Books,
            ext.flags.Ingredients, ext.flags.Picks, ext.flags.Probes, ext.flags.Lights,
            ext.flags.Apparatus, ext.flags.RepairItem, ext.flags.Misc],
          actorServices s.dm.mActor &&& x ≠ 0)
    ∧ (windowServices ext.flags s.dm.mActor &&& ext.flags.Service_BuySpells ≠ 0
        ↔ actorServices s.dm.mActor &&& ext.flags.Spells ≠ 0)
    ∧ (windowServices ext.flags s.dm.mActor &&& ext.flags.Service_CreateSpells ≠ 0
        ↔ actorServices s.dm.mActor &&& ext.flags.Spellmaking ≠ 0)
    ∧ (windowServices ext.flags s.dm.mActor &&& ext.flags.Service_Training ≠ 0
        ↔ actorServices s.dm.mActor &&& ext.flags.Training ≠ 0)
    ∧ (windowServices ext.flags s.dm.mActor &&& ext.flags.Service_Enchant ≠ 0
        ↔ actorServices s.dm.mActor &&& ext.flags.Enchanting ≠ 0)
    ∧ (windowServices ext.flags s.dm.mActor &&& ext.flags.Service_Travel ≠ 0
        ↔ s.dm.mActor.typeName = RefType.NPC ∧ s.dm.mActor.mTransport ≠ [])
    ∧ windowServices ext.flags s.dm.mActor
        &&& (ext.flags.Service_Trade ||| ext.flags.Service_Travel
          ||| ext.flags.Service_BuySpells ||| ext.flags.Service_CreateSpells
          ||| ext.flags.Service_Training ||| ext.flags.Service_Enchant)
        = windowServices ext.flags s.dm.mActor
    ∧ (∀ actor' : Ptr, actorServices actor' = actorServices s.dm.mActor →
        ((actor'.typeName = RefType.NPC ∧ actor'.mTransport ≠ [])
          ↔ (s.dm.mActor.typeName = RefType.NPC ∧ s.dm.mActor.mTransport ≠ [])) →
        windowServices ext.flags actor' = windowServices ext.flags s.dm.mActor) := by
  have hu := flag_union _ _ _ _ _ _ _ _ _ _ _ _ _ hdis (windowServices_eq ext.flags s.dm.mActor)
  obtain ⟨u1, u2, u3, u4, u5, u6, u7⟩ := hu
  simp only [List.mem_cons, List.mem_singleton, forall_eq_or_imp, forall_eq, List.not_mem_nil,
    IsEmpty.forall_iff, implies_true, and_true] at hne
  obtain ⟨n1, n2, n3, n4, n5, n6⟩ := hne
  refine ⟨?_, ?_, ?_, ?_, ?_, ?_, ?_, u7, ?_⟩
  · rw [updateTopics_eq]
    exact ⟨_, rfl⟩
  · rw [u1, ite_ne_zero_iff _ _ n1]
    simp only [List.mem_cons, List.mem_singleton, List.not_mem_nil, or_false, exists_eq_or_imp,
      exists_eq_left]
  · rw [u3, ite_ne_zero_iff _ _ n3]
  · rw [u4, ite_ne_zero_iff _ _ n4]
  · rw [u5, ite_ne_zero_iff _ _ n5]
  · rw [u6, ite_ne_zero_iff _ _ n6]
  · rw [u2, ite_ne_zero_iff _ _ n2]
  · intro actor' h1 h2
    rw [windowServices_eq, windowServices_eq, h1]
    simp only [h2]

/-- With the constants of the headers, which are distinct single bits, the
sample actor sells weapons and has no transport: the window receives the set
that consists of Trade. -/
theorem updateTopics_services_witness :
    (∀ a ∈ [demoExt.flags.Service_Trade, demoExt.flags.Service_Travel,
      demoExt.flags.Service_BuySpells, demoExt.flags.Service_CreateSpells,
      demoExt.flags.Service_Training, demoExt.flags.Service_Enchant], a ≠ 0)
    ∧ windowServices demoExt.flags demoInit.dm.mActor = 1
    ∧ windowServices demoExt.flags demoInit.dm.mActor &&& demoExt.flags.Service_Trade ≠ 0
    ∧ ¬ (windowServices demoExt.flags demoInit.dm.mActor &&& demoExt.flags.Service_Travel ≠ 0)
    := by
  have h := updateTopics_services demoExt demoInit (by decide) (by decide)
  refine ⟨by decide, by decide, ?_, ?_⟩
  · exact h.2.1.2 ⟨demoExt.flags.Weapon, by decide, by decide⟩
  · rw [h.2.2.2.2.2.2.1]
    decide

/-! ## Canonical form of the keys -/

/-- C15: in every state reached from construction by a sequence of calls
(`addTopic`, `parseText`, `startDialogue`, `keywordSelected`, `askQuestion`,
`questionAnswered`, `goodbyeSelected`, `persuade` and the other member
functions), with scripts that keep the property, every key of `mKnownTopics`,
of `mChoiceMap` and of `mDialogueMap` and every element of `mActorKnownTopics`
is equal to its own `toLower`. -/
theorem lowerCaseKeys_reachable (ext : Ext W) (actor : Ptr) (talkedTo : Bool) (w : W)
    (ops : List Op)
    (hscript : ∀ code st, LowerCaseKeys st.dm → LowerCaseKeys (ext.run code st).dm) :
    (∀ k ∈ StdMap.keys
        (steps ext ⟨DialogueManager.create ext.dialogs actor talkedTo, w, []⟩ ops
          ).dm.mKnownTopics, toLower k = k)
    ∧ (∀ k ∈ StdMap.keys
        (steps ext ⟨DialogueManager.create ext.dialogs actor talkedTo, w, []⟩ ops
          ).dm.mChoiceMap, toLower k = k)
    ∧ (∀ k ∈ StdMap.keys
        (steps ext ⟨DialogueManager.create ext.dialogs actor talkedTo, w, []⟩ ops
          ).dm.mDialogueMap, toLower k = k)
    ∧ (∀ k ∈ (steps ext ⟨DialogueManager.create ext.dialogs actor talkedTo, w, []⟩ ops
          ).dm.mActorKnownTopics, toLower k = k) :=
  lowerCaseKeys_steps ext _ ops hscript (lowerCaseKeys_create ext.dialogs actor talkedTo)

/-- In the sample environment scripts only ask questions or write the journal.
After `startDialogue`, the topic `"Background"` being added, the keyword
`"mages guild"` and a question `"Really?"`, the known topics are `"mages guild"`
and `"background"` and the pending answers are `"yes"`, `"no"` and
`"really?"`. -/
theorem lowerCaseKeys_reachable_witness :
    StdMap.keys (steps demoExt ⟨DialogueManager.create demoExt.dialogs demoActor false,
        ⟨["fargoth"], 95, 0⟩, []⟩
      [Op.startDialogue demoActor, Op.addTopic "Background", Op.keywordSelected "mages guild",
        Op.askQuestion "Really?" 3]).dm.mKnownTopics = ["mages guild", "background"]
    ∧ StdMap.keys (steps demoExt ⟨DialogueManager.create demoExt.dialogs demoActor false,
        ⟨["fargoth"], 95, 0⟩, []⟩
      [Op.startDialogue demoActor, Op.addTopic "Background", Op.keywordSelected "mages guild",
        Op.askQuestion "Really?" 3]).dm.mChoiceMap = ["yes", "no", "really?"]
    ∧ ∀ k ∈ StdMap.keys (steps demoExt ⟨DialogueManager.create demoExt.dialogs demoActor false,
        ⟨["fargoth"], 95, 0⟩, []⟩
      [Op.startDialogue demoActor, Op.addTopic "Background", Op.keywordSelected "mages guild",
        Op.askQuestion "Really?" 3]).dm.mChoiceMap, toLower k = k := by
  have h := lowerCaseKeys_reachable demoExt demoActor false ⟨["fargoth"], 95, 0⟩
    [Op.startDialogue demoActor, Op.addTopic "Background", Op.keywordSelected "mages guild",
      Op.askQuestion "Really?" 3]
    (by
      intro code st hst
      simp only [demoExt, demoRun]
      split_ifs
      · exact lowerCaseKeys_askQuestion _ "No" 2 (lowerCaseKeys_askQuestion _ "Yes" 1 hst)
      · exact hst
      · exact hst)
  exact ⟨by decide, by decide, h.2.1⟩

end Claims

end MWDialogue
